import Mathlib

/-!
Verification development for the date-tz library (`src/date-tz.ts`).

The TypeScript source is shallowly embedded: JS numbers holding integral
millisecond timestamps and offsets become `Int`; JS strings become `List Char`
(timezone identifiers, which are only compared for equality and used as map
keys, stay `String`); fallible code returns `Except Err`; the host services
the library consults (the `Intl.DateTimeFormat`-based offset lookup, the
locale month-name lookup, `Intl.getCanonicalLocales`) and the injected
timezone catalog are parameters gathered in an `Env`.

`Math.floor(a / b)` on integral JS numbers with `b > 0` is floor division,
which for a positive divisor is `Int.ediv`, the `/` of `Int`.  The JS `Date`
object's UTC accessors and `Date.UTC` follow ECMAScript's proleptic-Gregorian
calendar; they are embedded below as `msToLocal` / `dateUTC`, built on Howard
Hinnant's civil-from-days / days-from-civil algorithms, which compute exactly
the functions specified by ECMAScript (`YearFromTime`, `MakeDay`, ...),
including `Date.UTC`'s rule that a year argument in `[0, 99]` means
`1900 + year`.  `Number(chunk)` applied to the fixed-width chunks cut out by
the parser is embedded for the chunks that are whitespace and decimal digits
(empty/whitespace means `0`, digits mean their value, anything else is `NaN`);
the exotic numeric syntaxes (`±`, hex, exponent, decimal point) are outside
the embedding and are not relied on by any claim.
-/

namespace DateTzSpec

/-- `MS_PER_SECOND` (src/date-tz.ts line 11). -/
def MS_PER_SECOND : Int := 1000

/-- `MS_PER_MINUTE` (line 12). -/
def MS_PER_MINUTE : Int := 60000

/-- `MS_PER_HOUR` (line 13). -/
def MS_PER_HOUR : Int := 3600000

/-- `MS_PER_DAY` (line 14). -/
def MS_PER_DAY : Int := 86400000

/-- `MS_PER_WEEK` (line 15). -/
def MS_PER_WEEK : Int := 604800000

/-- A timezone catalog entry: `{ sdt, dst }` offsets in seconds
(src/timezones.ts, consumed by the library as injected data). -/
structure TimezoneOffset where
  sdt : Int
  dst : Int
deriving DecidableEq, Repr

/-- `OffsetInfo` (line 17). -/
structure OffsetInfo where
  offsetSeconds : Int
  isDst : Bool
deriving DecidableEq, Repr

/-- `LocalDateTime` (lines 19-26); month is 0-based as in JS `Date`. -/
structure LocalDateTime where
  year : Int
  month : Int
  day : Int
  hour : Int
  minute : Int
  second : Int
deriving DecidableEq, Repr

/-! ## The JS `Date` model: proleptic-Gregorian clock arithmetic -/

/-- Day number (days since 1970-01-01) of the civil date `(y, m, d)` with
`m` 1-based in `[1, 12]` and `d` arbitrary (day overflow simply shifts the
day number), per Hinnant's `days_from_civil`; this computes ECMAScript's
`MakeDay`. -/
def daysFromCivil (y m d : Int) : Int :=
  let yAdj : Int := if m ≤ 2 then y - 1 else y
  let era : Int := yAdj / 400
  let yoe : Int := yAdj - era * 400
  let doy : Int := (153 * (m + (if 2 < m then -3 else 9)) + 2) / 5 + d - 1
  let doe : Int := yoe * 365 + yoe / 4 - yoe / 100 + doy
  era * 146097 + doe - 719468

/-- Civil date `(year, month0, day)` (month 0-based) of a day number, per
Hinnant's `civil_from_days`; this computes ECMAScript's `YearFromTime` /
`MonthFromTime` / `DateFromTime` at the start of the day. -/
def civilFromDays (z : Int) : Int × Int × Int :=
  let zz : Int := z + 719468
  let era : Int := zz / 146097
  let doe : Int := zz - era * 146097
  let yoe : Int := (doe - doe / 1460 + doe / 36524 - doe / 146096) / 365
  let doy : Int := doe - (365 * yoe + yoe / 4 - yoe / 100)
  let mp : Int := (5 * doy + 2) / 153
  let d : Int := doy - (153 * mp + 2) / 5 + 1
  let m : Int := mp + (if mp < 10 then 3 else -9)
  (yoe + era * 400 + (if m ≤ 2 then 1 else 0), m - 1, d)

/-- Decomposition of a millisecond timestamp into UTC calendar fields: the
embedding of `new Date(ms).getUTCFullYear()/getUTCMonth()/getUTCDate()/
getUTCHours()/getUTCMinutes()/getUTCSeconds()` (used at lines 1133-1144). -/
def msToLocal (ms : Int) : LocalDateTime :=
  let day : Int := ms / MS_PER_DAY
  let tod : Int := ms - day * MS_PER_DAY
  let c := civilFromDays day
  { year := c.1, month := c.2.1, day := c.2.2
    hour := tod / MS_PER_HOUR
    minute := (tod % MS_PER_HOUR) / MS_PER_MINUTE
    second := (tod % MS_PER_MINUTE) / MS_PER_SECOND }

/-- The embedding of `Date.UTC(y, m, d, h, mi, s)` on integral arguments:
ECMAScript normalizes the month by carrying into the year, applies the
two-digit-year rule (`0 ≤ y ≤ 99` means `1900 + y`), and lets day and time
components overflow freely. -/
def dateUTC (y m d h mi s : Int) : Int :=
  let yr : Int := if 0 ≤ y ∧ y ≤ 99 then y + 1900 else y
  let ym : Int := yr * 12 + m
  daysFromCivil (ym / 12) (ym % 12 + 1) d * MS_PER_DAY +
    h * MS_PER_HOUR + mi * MS_PER_MINUTE + s * MS_PER_SECOND

/-- `new Date(ms).getUTCDay()`: day of week, 0 = Sunday (used at line 687). -/
def msToDayOfWeek (ms : Int) : Int :=
  (ms / MS_PER_DAY + 4) % 7

/-! ### Correctness of the civil conversions -/

set_option maxHeartbeats 4000000 in
/-- Core fact about Hinnant's year-of-era formula on one 400-year era:
the formula's result indexes the year containing day `doe`. -/
theorem yoe_core (doe : Int) (h0 : 0 ≤ doe) (h1 : doe ≤ 146096) :
    0 ≤ (doe - doe / 1460 + doe / 36524 - doe / 146096) / 365
    ∧ (doe - doe / 1460 + doe / 36524 - doe / 146096) / 365 ≤ 399
    ∧ 365 * ((doe - doe / 1460 + doe / 36524 - doe / 146096) / 365)
      + ((doe - doe / 1460 + doe / 36524 - doe / 146096) / 365) / 4
      - ((doe - doe / 1460 + doe / 36524 - doe / 146096) / 365) / 100 ≤ doe
    ∧ doe - (365 * ((doe - doe / 1460 + doe / 36524 - doe / 146096) / 365)
      + ((doe - doe / 1460 + doe / 36524 - doe / 146096) / 365) / 4
      - ((doe - doe / 1460 + doe / 36524 - doe / 146096) / 365) / 100) ≤ 365 := by
  have hk0 : 0 ≤ doe / 1460 := by omega
  have hk : doe / 1460 ≤ 100 := by omega
  set k := doe / 1460 with hkdef
  interval_cases k <;>
    first
      | omega
      | (rcases Int.lt_or_le doe 36524 with h2 | h2 <;> omega)
      | (rcases Int.lt_or_le doe 73048 with h2 | h2 <;> omega)
      | (rcases Int.lt_or_le doe 109572 with h2 | h2 <;> omega)

/-- Within one era, decomposing a day-of-era into (year-of-era, month, day)
produces in-range fields and `daysFromCivil` inverts the decomposition. -/
theorem era_decomp (z doe era yoe doy mp d m : Int)
    (hz : z + 719468 = era * 146097 + doe)
    (hdoe0 : 0 ≤ doe) (hdoe1 : doe ≤ 146096)
    (hyoe : yoe = (doe - doe / 1460 + doe / 36524 - doe / 146096) / 365)
    (hdoy : doy = doe - (365 * yoe + yoe / 4 - yoe / 100))
    (hmp : mp = (5 * doy + 2) / 153)
    (hd : d = doy - (153 * mp + 2) / 5 + 1)
    (hm : m = mp + (if mp < 10 then 3 else -9)) :
    0 ≤ m - 1 ∧ m - 1 ≤ 11 ∧ 1 ≤ d ∧ d ≤ 31
    ∧ daysFromCivil (yoe + era * 400 + (if m ≤ 2 then 1 else 0)) (m - 1 + 1) d = z := by
  have hcore := yoe_core doe hdoe0 hdoe1
  rw [← hyoe] at hcore
  have hyb : 0 ≤ yoe ∧ yoe ≤ 399 := ⟨hcore.1, hcore.2.1⟩
  have hdoyb : 0 ≤ doy ∧ doy ≤ 365 := by omega
  have hmpb : 0 ≤ mp ∧ mp ≤ 11 := by omega
  have hdb : 1 ≤ d ∧ d ≤ 31 := by omega
  have hmb : 1 ≤ m ∧ m ≤ 12 := by split_ifs at hm <;> omega
  have hma : m - 1 + 1 = m := by omega
  have hmmp : m + (if 2 < m then -3 else 9) = mp := by
    split_ifs at hm ⊢ <;> omega
  refine ⟨by omega, by omega, hdb.1, hdb.2, ?_⟩
  rw [hma]
  simp only [daysFromCivil]
  rw [hmmp]
  split_ifs with h1
  · have e1 : (yoe + era * 400 + 1 - 1) / 400 = era := by omega
    rw [e1]
    have e2 : (yoe + era * 400 + 1 - 1 - era * 400) / 4 = yoe / 4 := by omega
    have e3 : (yoe + era * 400 + 1 - 1 - era * 400) / 100 = yoe / 100 := by omega
    rw [e2, e3]
    omega
  · have e1 : (yoe + era * 400 + 0) / 400 = era := by omega
    rw [e1]
    have e2 : (yoe + era * 400 + 0 - era * 400) / 4 = yoe / 4 := by omega
    have e3 : (yoe + era * 400 + 0 - era * 400) / 100 = yoe / 100 := by omega
    rw [e2, e3]
    omega

/-- `civilFromDays` produces in-range month and day fields and
`daysFromCivil` inverts it. -/
theorem civilFromDays_spec (z : Int) :
    0 ≤ (civilFromDays z).2.1 ∧ (civilFromDays z).2.1 ≤ 11
    ∧ 1 ≤ (civilFromDays z).2.2 ∧ (civilFromDays z).2.2 ≤ 31
    ∧ daysFromCivil (civilFromDays z).1 ((civilFromDays z).2.1 + 1)
        (civilFromDays z).2.2 = z := by
  simp only [civilFromDays]
  exact era_decomp z _ ((z + 719468) / 146097) _ _ _ _ _
    (by omega) (by omega) (by omega) rfl rfl rfl rfl rfl

/-- The calendar fields of any timestamp are in their ranges. -/
theorem msToLocal_range (ms : Int) :
    0 ≤ (msToLocal ms).month ∧ (msToLocal ms).month ≤ 11
    ∧ 1 ≤ (msToLocal ms).day ∧ (msToLocal ms).day ≤ 31
    ∧ 0 ≤ (msToLocal ms).hour ∧ (msToLocal ms).hour ≤ 23
    ∧ 0 ≤ (msToLocal ms).minute ∧ (msToLocal ms).minute ≤ 59
    ∧ 0 ≤ (msToLocal ms).second ∧ (msToLocal ms).second ≤ 59 := by
  obtain ⟨c1, c2, c3, c4, _⟩ := civilFromDays_spec (ms / MS_PER_DAY)
  simp only [msToLocal, MS_PER_DAY, MS_PER_HOUR, MS_PER_MINUTE, MS_PER_SECOND] at *
  refine ⟨c1, c2, c3, c4, ?_, ?_, ?_, ?_, ?_, ?_⟩ <;> omega

/-- Recomposing the fields of a timestamp with `Date.UTC` recovers the
timestamp up to its sub-second part, provided the year escapes `Date.UTC`'s
two-digit-year rule. -/
theorem dateUTC_msToLocal (ms : Int)
    (hy : (msToLocal ms).year ≤ -1 ∨ 100 ≤ (msToLocal ms).year) :
    dateUTC (msToLocal ms).year (msToLocal ms).month (msToLocal ms).day
      (msToLocal ms).hour (msToLocal ms).minute (msToLocal ms).second
      = ms - ms % MS_PER_SECOND := by
  obtain ⟨c1, c2, c3, c4, c5⟩ := civilFromDays_spec (ms / MS_PER_DAY)
  simp only [msToLocal, MS_PER_DAY, MS_PER_HOUR, MS_PER_MINUTE, MS_PER_SECOND] at *
  simp only [dateUTC, MS_PER_DAY, MS_PER_HOUR, MS_PER_MINUTE, MS_PER_SECOND]
  have hyr : ¬ (0 ≤ (civilFromDays (ms / 86400000)).1
      ∧ (civilFromDays (ms / 86400000)).1 ≤ 99) := by
    omega
  rw [if_neg hyr]
  have h12a : ((civilFromDays (ms / 86400000)).1 * 12 + (civilFromDays (ms / 86400000)).2.1) / 12
      = (civilFromDays (ms / 86400000)).1 := by omega
  have h12b : ((civilFromDays (ms / 86400000)).1 * 12 + (civilFromDays (ms / 86400000)).2.1) % 12
      = (civilFromDays (ms / 86400000)).2.1 := by omega
  rw [h12a, h12b, c5]
  omega

/-! ## JS strings as lists of characters -/

/-- JS strings are modeled as lists of characters. -/
abbrev Str := List Char

/-- The decimal digit character for `d ≤ 9`. -/
def digitChar (d : Nat) : Char :=
  match d with
  | 0 => '0' | 1 => '1' | 2 => '2' | 3 => '3' | 4 => '4'
  | 5 => '5' | 6 => '6' | 7 => '7' | 8 => '8' | _ => '9'

/-- Numeric value of a digit character. -/
def digitVal (c : Char) : Nat := c.toNat - 48

/-- Fuel-driven digit renderer; the fuel is structural so that it computes
inside the kernel.  `natToDigits` supplies sufficient fuel. -/
def natToDigitsF : Nat → Nat → Str
  | 0, _ => []
  | fuel + 1, n =>
      if n < 10 then [digitChar n] else natToDigitsF fuel (n / 10) ++ [digitChar (n % 10)]

/-- Decimal rendering of a natural number, as `String(n)` produces for
integral JS numbers (of ordinary magnitude). -/
def natToDigits (n : Nat) : Str := natToDigitsF (n + 1) n

theorem natToDigitsF_congr (f1 f2 n : Nat) (h1 : n < f1) (h2 : n < f2) :
    natToDigitsF f1 n = natToDigitsF f2 n := by
  induction f1 generalizing f2 n with
  | zero => omega
  | succ f1 ih =>
    cases f2 with
    | zero => omega
    | succ f2 =>
      unfold natToDigitsF
      split
      · rfl
      · rename_i h
        rw [ih f2 (n / 10) (by omega) (by omega)]

/-- The recursion `natToDigits` implements. -/
theorem natToDigits_eq (n : Nat) :
    natToDigits n
      = if n < 10 then [digitChar n] else natToDigits (n / 10) ++ [digitChar (n % 10)] := by
  unfold natToDigits
  rw [show natToDigitsF (n + 1) n
      = if n < 10 then [digitChar n] else natToDigitsF n (n / 10) ++ [digitChar (n % 10)]
    from rfl]
  split
  · rfl
  · rename_i h
    rw [natToDigitsF_congr n (n / 10 + 1) (n / 10) (by omega) (by omega)]

/-- `String(i)` for an integral JS number. -/
def intToStr (i : Int) : Str :=
  if i < 0 then '-' :: natToDigits (-i).toNat else natToDigits i.toNat

/-- `String.prototype.padStart`. -/
def padStart (cs : Str) (len : Nat) (c : Char) : Str :=
  List.replicate (len - cs.length) c ++ cs

/-- `pad` (src/date-tz.ts line 99): `String(value).padStart(length, '0')`. -/
def padI (v : Int) (len : Nat) : Str := padStart (intToStr v) len '0'

/-- JS whitespace as relevant to `trim` on the strings at hand. -/
def isWS (c : Char) : Bool := c = ' ' || c = '\t' || c = '\n' || c = '\r'

/-- `String.prototype.trim`. -/
def trimStr (cs : Str) : Str :=
  ((cs.dropWhile isWS).reverse.dropWhile isWS).reverse

/-- Value of a string of decimal digits. -/
def digitsToNat (cs : Str) : Nat := cs.foldl (fun a c => a * 10 + digitVal c) 0

/-- Whether every character is a decimal digit. -/
def allDigits (cs : Str) : Bool := cs.all Char.isDigit

/-- `Number(chunk)` on the fixed-width chunks the parser reads: a chunk that
trims to empty converts to `0`, a chunk of decimal digits to its value, and
anything else here to `NaN` (`none`); see the header note on scope. -/
def jsNumber (cs : Str) : Option Int :=
  let t := trimStr cs
  if t.isEmpty then some 0
  else if allDigits t then some (digitsToNat t)
  else none

/-- `String.prototype.slice(-2)`. -/
def jsSliceNeg2 (cs : Str) : Str := cs.drop (cs.length - 2)

/-- `capitalise` (line 103). -/
def capitalise (cs : Str) : Str :=
  match cs with
  | [] => []
  | c :: t => c.toUpper :: t

/-- `String.prototype.toUpperCase` on ASCII strings. -/
def toUpperStr (cs : Str) : Str := cs.map Char.toUpper

theorem digitChar_isDigit (d : Nat) (h : d ≤ 9) : (digitChar d).isDigit = true := by
  interval_cases d <;> decide

theorem digitVal_digitChar (d : Nat) (h : d ≤ 9) : digitVal (digitChar d) = d := by
  interval_cases d <;> decide

theorem natToDigits_all_digits (n : Nat) : allDigits (natToDigits n) = true := by
  induction n using Nat.strong_induction_on with
  | _ n ih =>
    rw [natToDigits_eq]
    split
    · simp [allDigits, digitChar_isDigit n (by omega)]
    · rename_i h
      simp only [allDigits, List.all_append, Bool.and_eq_true]
      exact ⟨ih (n / 10) (Nat.div_lt_self (by omega) (by omega)),
        by simp [digitChar_isDigit (n % 10) (by omega)]⟩

theorem digitsToNat_append (a b : Str) :
    digitsToNat (a ++ b) = b.foldl (fun x c => x * 10 + digitVal c) (digitsToNat a) := by
  simp [digitsToNat, List.foldl_append]

theorem natToDigits_val (n : Nat) : digitsToNat (natToDigits n) = n := by
  induction n using Nat.strong_induction_on with
  | _ n ih =>
    rw [natToDigits_eq]
    split
    · rename_i h
      simp [digitsToNat, digitVal_digitChar n (by omega)]
    · rename_i h
      rw [digitsToNat_append, ih (n / 10) (Nat.div_lt_self (by omega) (by omega))]
      simp [digitVal_digitChar (n % 10) (by omega)]
      omega

theorem natToDigits_length (n : Nat) (k : Nat) (h1 : 10 ^ k ≤ n) (h2 : n < 10 ^ (k + 1)) :
    (natToDigits n).length = k + 1 := by
  induction k generalizing n with
  | zero =>
    rw [natToDigits_eq]
    have : n < 10 := by omega
    simp [this]
  | succ k ih =>
    rw [natToDigits_eq]
    have h10 : ¬ n < 10 := by
      have : (10 : Nat) ^ 1 ≤ 10 ^ (k + 1) := Nat.pow_le_pow_right (by omega) (by omega)
      omega
    rw [if_neg h10]
    simp only [List.length_append, List.length_cons, List.length_nil]
    have hd1 : 10 ^ k ≤ n / 10 := Nat.le_div_iff_mul_le (by omega) |>.mpr (by
      calc 10 ^ k * 10 = 10 ^ (k + 1) := by ring
      _ ≤ n := h1)
    have hd2 : n / 10 < 10 ^ (k + 1) := by
      rw [Nat.div_lt_iff_lt_mul (by omega)]
      calc n < 10 ^ (k + 2) := h2
      _ = 10 ^ (k + 1) * 10 := by ring
    rw [ih (n / 10) hd1 hd2]

theorem isDigit_not_isWS (c : Char) (h : c.isDigit = true) : isWS c = false := by
  unfold isWS
  by_contra hw
  simp only [Bool.or_eq_true, decide_eq_true_eq, Bool.not_eq_false] at hw
  rcases hw with ((h1 | h1) | h1) | h1 <;> subst h1 <;> simp [Char.isDigit] at h

theorem dropWhile_eq_self_of_all (p : Char → Bool) (cs : Str)
    (h : ∀ c ∈ cs, p c = false) : cs.dropWhile p = cs := by
  cases cs with
  | nil => rfl
  | cons c rest =>
    rw [List.dropWhile_cons_of_neg]
    simp [h c (by simp)]

theorem trimStr_of_digits (cs : Str) (h : allDigits cs = true) : trimStr cs = cs := by
  unfold trimStr
  simp only [allDigits, List.all_eq_true] at h
  rw [dropWhile_eq_self_of_all isWS cs (fun c hc => isDigit_not_isWS c (h c hc))]
  rw [dropWhile_eq_self_of_all isWS cs.reverse
    (fun c hc => isDigit_not_isWS c (h c (List.mem_reverse.mp hc)))]
  simp

theorem natToDigits_ne_nil (n : Nat) : natToDigits n ≠ [] := by
  rw [natToDigits_eq]
  split <;> simp

theorem jsNumber_natToDigits (n : Nat) : jsNumber (natToDigits n) = some (n : Int) := by
  unfold jsNumber
  rw [trimStr_of_digits _ (natToDigits_all_digits n)]
  have hne := natToDigits_ne_nil n
  simp only [List.isEmpty_iff, hne, if_false, natToDigits_all_digits n, if_true,
    natToDigits_val n, ite_false, ite_true]

theorem digitsToNat_replicate_zero (k : Nat) (cs : Str) :
    digitsToNat (List.replicate k '0' ++ cs) = digitsToNat cs := by
  induction k with
  | zero => simp
  | succ k ih =>
    rw [List.replicate_succ, List.cons_append]
    unfold digitsToNat at *
    simp only [List.foldl_cons]
    have : digitVal '0' = 0 := by decide
    rw [this]
    simpa using ih

theorem allDigits_replicate_zero_append (k : Nat) (cs : Str) (h : allDigits cs = true) :
    allDigits (List.replicate k '0' ++ cs) = true := by
  simp only [allDigits, List.all_append, List.all_eq_true, Bool.and_eq_true] at *
  exact ⟨fun c hc => by rw [List.eq_of_mem_replicate hc]; decide, h⟩

theorem padI_two_spec (v : Int) (h0 : 0 ≤ v) (h1 : v ≤ 99) :
    (padI v 2).length = 2 ∧ allDigits (padI v 2) = true
      ∧ jsNumber (padI v 2) = some v := by
  unfold padI padStart intToStr
  rw [if_neg (by omega)]
  have hlen : (natToDigits v.toNat).length = 1 ∨ (natToDigits v.toNat).length = 2 := by
    rcases Nat.lt_or_ge v.toNat 10 with hn | hn
    · left; rw [natToDigits_eq]; simp [hn]
    · right
      exact natToDigits_length v.toNat 1 (by omega) (by omega)
  have hall := natToDigits_all_digits v.toNat
  have hvv := natToDigits_val v.toNat
  rcases hlen with hl | hl <;> rw [hl]
  · have hrep : List.replicate (2 - 1) '0' = ['0'] := rfl
    rw [hrep]
    have hall2 : allDigits ('0' :: natToDigits v.toNat) = true := by
      have := allDigits_replicate_zero_append 1 (natToDigits v.toNat) hall
      simpa using this
    refine ⟨by simp [hl], hall2, ?_⟩
    unfold jsNumber
    rw [show (['0'] ++ natToDigits v.toNat) = ('0' :: natToDigits v.toNat) from rfl]
    rw [trimStr_of_digits _ hall2]
    simp only [List.isEmpty_cons, hall2, if_true, if_false, Bool.false_eq_true]
    have hdz : digitsToNat ('0' :: natToDigits v.toNat) = v.toNat := by
      have := digitsToNat_replicate_zero 1 (natToDigits v.toNat)
      simpa [hvv] using this
    rw [hdz, Int.toNat_of_nonneg h0]
  · refine ⟨by simp [hl], by simpa using hall, ?_⟩
    simp only [Nat.sub_self, List.replicate_zero, List.nil_append]
    rw [jsNumber_natToDigits]
    rw [Int.toNat_of_nonneg h0]

theorem natToDigits_four (y : Nat) (h1 : 1000 ≤ y) (h2 : y ≤ 9999) :
    (natToDigits y).length = 4 ∧ allDigits (natToDigits y) = true
      ∧ jsNumber (natToDigits y) = some (y : Int) := by
  exact ⟨natToDigits_length y 3 (by omega) (by omega), natToDigits_all_digits y,
    jsNumber_natToDigits y⟩

theorem natToDigits_last_two (y : Nat) (h1 : 1000 ≤ y) (h2 : y ≤ 9999) :
    jsSliceNeg2 (natToDigits y) = [digitChar (y / 10 % 10), digitChar (y % 10)]
    ∧ jsNumber (jsSliceNeg2 (natToDigits y)) = some ((y % 100 : Nat) : Int) := by
  have e1 : natToDigits y = natToDigits (y / 10) ++ [digitChar (y % 10)] := by
    rw [natToDigits_eq]
    simp [show ¬ y < 10 by omega]
  have e2 : natToDigits (y / 10) = natToDigits (y / 10 / 10) ++ [digitChar (y / 10 % 10)] := by
    rw [natToDigits_eq]
    simp [show ¬ y / 10 < 10 by omega]
  have hl4 : (natToDigits y).length = 4 := natToDigits_length y 3 (by omega) (by omega)
  have hl2 : (natToDigits (y / 10 / 10)).length = 2 := by
    have : y / 10 / 10 = y / 100 := by omega
    rw [this]
    exact natToDigits_length (y / 100) 1 (by omega) (by omega)
  have hsplit : natToDigits y
      = natToDigits (y / 10 / 10) ++ [digitChar (y / 10 % 10), digitChar (y % 10)] := by
    rw [e1, e2]
    simp
  have hs : jsSliceNeg2 (natToDigits y) = [digitChar (y / 10 % 10), digitChar (y % 10)] := by
    unfold jsSliceNeg2
    rw [hl4, hsplit]
    rw [show (4 - 2 : Nat) = (natToDigits (y / 10 / 10)).length from by omega]
    rw [List.drop_left]
  refine ⟨hs, ?_⟩
  rw [hs]
  have hall : allDigits [digitChar (y / 10 % 10), digitChar (y % 10)] = true := by
    simp [allDigits, digitChar_isDigit (y / 10 % 10) (by omega),
      digitChar_isDigit (y % 10) (by omega)]
  unfold jsNumber
  rw [trimStr_of_digits _ hall]
  simp only [List.isEmpty_cons, hall, if_true, if_false, Bool.false_eq_true]
  have : digitsToNat [digitChar (y / 10 % 10), digitChar (y % 10)] = y % 100 := by
    unfold digitsToNat
    simp only [List.foldl_cons, List.foldl_nil]
    rw [digitVal_digitChar (y / 10 % 10) (by omega), digitVal_digitChar (y % 10) (by omega)]
    omega
  rw [this]

theorem take_drop_split (u rest : Str) (k : Nat) (h : u.length = k) :
    (u ++ rest).take k = u ∧ (u ++ rest).drop k = rest := by
  subst h
  exact ⟨List.take_left u rest, List.drop_left u rest⟩

/-! ## The pattern tokenizer (lines 28-138) -/

/-- `TokenKey` (line 32). -/
inductive TokenKey
  | YYYY | yyyy | YY | yy | MM | LM | DD | HH | hh | mm | ss | aa | AA | tz
deriving DecidableEq, Repr

/-- `PatternSegment` (lines 28-30). -/
inductive PatternSegment
  | token (value : TokenKey)
  | literal (value : Str)
deriving DecidableEq, Repr

/-- The token alternatives of `TOKEN_REGEX` (line 34), in alternation order. -/
def tokenSpellings : List (TokenKey × Str) :=
  [(.YYYY, "YYYY".data), (.yyyy, "yyyy".data), (.YY, "YY".data), (.yy, "yy".data),
   (.MM, "MM".data), (.LM, "LM".data), (.DD, "DD".data), (.HH, "HH".data),
   (.hh, "hh".data), (.mm, "mm".data), (.ss, "ss".data), (.aa, "aa".data),
   (.AA, "AA".data), (.tz, "tz".data)]

/-- Whether `p` is a leading subsequence of `s`. -/
def startsWithSeq : Str → Str → Bool
  | [], _ => true
  | _ :: _, [] => false
  | p :: ps, c :: cs => p = c && startsWithSeq ps cs

/-- Scan to the first `]`, as the regex piece `[^\]]*]` does; `none` when the
pattern has no closing bracket (the bracket alternative then fails). -/
def splitAtRB : Str → Option (Str × Str)
  | [] => none
  | c :: cs =>
      if c = ']' then some ([], cs)
      else (splitAtRB cs).map (fun ir => (c :: ir.1, ir.2))

/-- Try the token alternatives of `TOKEN_REGEX` at the current position. -/
def matchTokenAt (cs : Str) : Option (TokenKey × Str) :=
  (tokenSpellings.find? (fun kv => startsWithSeq kv.2 cs)).map
    (fun kv => (kv.1, cs.drop kv.2.length))

/-- One attempt of `TOKEN_REGEX` at the current position: the bracket-literal
alternative first, then the token spellings. -/
def matchSegmentAt (cs : Str) : Option (PatternSegment × Str) :=
  match cs with
  | '[' :: rest =>
      match splitAtRB rest with
      | some ir => some (.literal ir.1, ir.2)
      | none => (matchTokenAt cs).map (fun kr => (.token kr.1, kr.2))
  | _ => (matchTokenAt cs).map (fun kr => (.token kr.1, kr.2))

/-- The pending unmatched characters become a literal segment, as
`tokenizePattern` (line 114) pushes the text between regex matches. -/
def flushLit (acc : Str) : List PatternSegment :=
  if acc.isEmpty then [] else [.literal acc.reverse]

/-- The scanning loop of `tokenizePattern` (lines 114-138): walk the pattern,
emitting a segment at each regex match and accumulating unmatched characters
into literal segments.  The structural fuel makes the definition compute in
the kernel; every iteration either consumes at least one character or ends
the scan, so `length + 1` fuel (supplied by `tokenizePattern`) is exact. -/
def tokenizeAux : Nat → Str → Str → List PatternSegment
  | 0, acc, _ => flushLit acc
  | fuel + 1, acc, rem =>
      match rem with
      | [] => flushLit acc
      | c :: cs =>
          match matchSegmentAt (c :: cs) with
          | some segRest => flushLit acc ++ segRest.1 :: tokenizeAux fuel [] segRest.2
          | none => tokenizeAux fuel (c :: acc) cs

/-- `tokenizePattern` (line 114). -/
def tokenizePattern (p : Str) : List PatternSegment := tokenizeAux (p.length + 1) [] p

/-- Substring test, the embedding of `RegExp.test` for the alternation
`FORMAT_TOKEN_CHECK` (line 35) whose alternatives are plain words. -/
def containsSeq (needle hay : Str) : Bool :=
  match hay with
  | [] => needle.isEmpty
  | _ :: t => startsWithSeq needle hay || containsSeq needle t

/-- `containsFormattingToken` (line 110). -/
def containsFormattingToken (p : Str) : Bool :=
  tokenSpellings.any (fun kv => containsSeq kv.2 p)

/-- `String.prototype.indexOf(needle)` returning the first match position. -/
def indexOfSeq (needle hay : Str) : Option Nat :=
  match hay with
  | [] => if needle.isEmpty then some 0 else none
  | _ :: t =>
      if startsWithSeq needle hay then some 0
      else (indexOfSeq needle t).map (fun i => i + 1)

/-! ## Environment, errors, and the `DateTz` data model -/

/-- The failure modes of the library; the source throws `Error` values whose
messages distinguish exactly these cases. -/
inductive Err
  | invalidTimezone (id : String)
  | cannotCompare
  | missingMeridiem
  | missingAmPm
  | literalMismatch
  | badChunk
  | badNumber
  | tzNotFound
  | lmUnsupported
  | unconsumedInput
  | unsupportedUnit
  | invalidDay
deriving DecidableEq, Repr

/-- The injected data and host services: the timezone catalog
(`timezones` of src/timezones.ts), `computeIntlOffsetSeconds` (lines 159-191,
an `Intl.DateTimeFormat` round trip returning an offset in seconds or `null`),
the locale month-name lookup of `toString` (lines 343-346), and
`Intl.getCanonicalLocales` as used by `isLikelyLocale` (line 1193). -/
structure Env where
  tzs : String → Option TimezoneOffset
  intl : String → Int → Option Int
  monthName : Int → Int → Str → Str
  likelyLocale : Str → Bool

/-- The `DateTz` instance state (lines 261-264). -/
structure DateTz where
  timestamp : Int
  timezone : String
  offsetCache : Option (Int × OffsetInfo)
deriving DecidableEq, Repr

/-- `ensureTimezone` (line 87). -/
def ensureTimezone (env : Env) (id : String) : Except Err TimezoneOffset :=
  match env.tzs id with
  | none => .error (.invalidTimezone id)
  | some info => .ok info

/-- `floorToMinute` (line 95). -/
def floorToMinute (t : Int) : Int := t / MS_PER_MINUTE * MS_PER_MINUTE

/-- The `DateTz` constructor (lines 268-283); both the object path and the
number path floor the timestamp and validate the timezone (which defaults to
`UTC`), and start with an empty offset cache. -/
def newDateTz (env : Env) (value : Int) (tz : Option String) : Except Err DateTz := do
  let timezone := tz.getD ("UTC")
  let _ ← ensureTimezone env timezone
  .ok { timestamp := floorToMinute value, timezone := timezone, offsetCache := none }

/-- `computeOffsetInfo` (lines 193-206) after the catalog entry has been
fetched; `env.intl` stands for `computeIntlOffsetSeconds`. -/
def computeOffsetInfoWith (env : Env) (info : TimezoneOffset) (timezone : String)
    (timestamp : Int) : OffsetInfo :=
  if info.dst = info.sdt then { offsetSeconds := info.sdt, isDst := false }
  else
    match env.intl timezone timestamp with
    | none => { offsetSeconds := info.sdt, isDst := false }
    | some o =>
        if o ≠ info.sdt ∧ o ≠ info.dst then
          { offsetSeconds := o, isDst := decide (info.sdt < o) }
        else { offsetSeconds := o, isDst := decide (o = info.dst) }

/-- `computeOffsetInfo` (lines 193-206). -/
def computeOffsetInfo (env : Env) (timezone : String) (timestamp : Int) :
    Except Err OffsetInfo := do
  let info ← ensureTimezone env timezone
  .ok (computeOffsetInfoWith env info timezone timestamp)

/-- The value computed by `getOffsetInfo` (lines 1164-1171): the cache is
consulted when its key matches; the memo write performed by a read is not
observable through any public result and is not tracked. -/
def getOffsetInfoVal (env : Env) (d : DateTz) : Except Err OffsetInfo :=
  match d.offsetCache with
  | some ti =>
      if ti.1 = d.timestamp then .ok ti.2
      else computeOffsetInfo env d.timezone d.timestamp
  | none => computeOffsetInfo env d.timezone d.timestamp

/-- `resolveOffsetSeconds` (lines 1157-1162). -/
def resolveOffsetSeconds (env : Env) (d : DateTz) (considerDst : Bool) :
    Except Err Int :=
  if considerDst then (getOffsetInfoVal env d).map (fun i => i.offsetSeconds)
  else (ensureTimezone env d.timezone).map (fun i => i.sdt)

/-- `getLocalParts` (lines 1133-1144). -/
def getLocalParts (env : Env) (d : DateTz) (considerDst : Bool) :
    Except Err LocalDateTime :=
  (resolveOffsetSeconds env d considerDst).map
    (fun off => msToLocal (d.timestamp + off * MS_PER_SECOND))

/-- `isLeapYear` (line 144); the JS `%` tests divisibility, which agrees
with `Int.emod` on zero-tests. -/
def isLeapYear (y : Int) : Bool :=
  (y % 4 == 0 && y % 100 != 0) || y % 400 == 0

/-- `daysPerMonth` (line 85). -/
def daysPerMonth : List Int := [31, 28, 31, 30, 31, 30, 31, 31, 30, 31, 30, 31]

/-- `daysInMonth` (line 148); a month index outside `[0, 11]` reads an
undefined array slot, modeled as `none` (the `NaN` it produces in JS poisons
the later arithmetic and string round trip). -/
def daysInMonthE (y m : Int) : Option Int :=
  if m = 1 then some (if isLeapYear y then 29 else 28)
  else if 0 ≤ m ∧ m ≤ 11 then some (daysPerMonth.getD m.toNat 0)
  else none

/-- `clampDay` (line 155). -/
def clampDay (y m d : Int) : Option Int :=
  (daysInMonthE y m).map (fun dm => min d dm)

/-- `convertTwoDigitYear` (line 140). -/
def convertTwoDigitYear (v : Int) : Int :=
  v + (if 70 ≤ v then 1900 else 2000)

/-- `DateTz.defaultFormat` (line 266). -/
def defaultFormat : Str := "YYYY-MM-DD HH:mm:ss".data

/-- `isComparable` (line 294). -/
def isComparable (d other : DateTz) : Bool := d.timezone = other.timezone

/-- `ensureComparable` (lines 1185-1191) on an argument that is already a
`DateTz` instance (`toDateInstance` then returns it unchanged). -/
def ensureComparable (d other : DateTz) : Except Err DateTz :=
  if isComparable d other then .ok other else .error .cannotCompare

/-- `compare` (lines 289-292). -/
def compareDT (d other : DateTz) : Except Err Int :=
  (ensureComparable d other).map (fun c => d.timestamp - c.timestamp)

/-- `convertToTimezone` (lines 616-621). -/
def convertToTimezone (env : Env) (d : DateTz) (tz : String) : Except Err DateTz := do
  let _ ← ensureTimezone env tz
  .ok { timestamp := d.timestamp, timezone := tz, offsetCache := none }

/-- `cloneToTimezone` (lines 623-629): returns the state of `this` after the
call (left untouched by the source) paired with the returned clone, which is
built by the constructor from `this` and then retargeted and cache-cleared. -/
def cloneToTimezone (env : Env) (d : DateTz) (tz : String) :
    Except Err (DateTz × DateTz) := do
  let _ ← ensureTimezone env tz
  .ok (d, { timestamp := floorToMinute d.timestamp, timezone := tz, offsetCache := none })

/-- `clone` (line 533): `new DateTz(this)`. -/
def cloneDT (env : Env) (d : DateTz) : Except Err DateTz :=
  newDateTz env d.timestamp (some d.timezone)

/-- `DateTz.hydrate` (lines 930-955) on a plain serialized object: the
candidate is rebuilt through the constructor and adopts its timestamp and
timezone. -/
def hydrateDT (env : Env) (ts : Int) (tzField : Option String) (tz : Option String) :
    Except Err DateTz := do
  let timezone := match tzField with
    | some s => s
    | none => tz.getD ("UTC")
  newDateTz env ts (some timezone)

/-- `dayOfWeek` (lines 684-688). -/
def dayOfWeekE (env : Env) (d : DateTz) : Except Err Int := do
  let off ← resolveOffsetSeconds env d true
  .ok (msToDayOfWeek (d.timestamp + off * MS_PER_SECOND))

/-! ## The parser (lines 690-889) -/

/-- The `state` record accumulated by the parse loop (lines 701-712). -/
structure ParseState where
  year : Option Int := none
  yearTwoDigit : Option Int := none
  month : Option Int := none
  day : Option Int := none
  hour24 : Option Int := none
  hour12 : Option Int := none
  minute : Option Int := none
  second : Option Int := none
  ampm : Option Str := none
  timezone : Option Str := none
deriving DecidableEq, Repr

/-- The empty initial parse state. -/
def initState : ParseState := {}

/-- `readFixed` (lines 727-734) on the remaining input. -/
def readFixedE (len : Nat) (rem : Str) : Except Err (Str × Str) :=
  let chunk := rem.take len
  if chunk.length ≠ len then .error .badChunk else .ok (chunk, rem.drop len)

/-- `readNumber` (lines 735-742). -/
def readNumberE (len : Nat) (rem : Str) : Except Err (Int × Str) := do
  let cr ← readFixedE len rem
  match jsNumber cr.1 with
  | none => .error .badNumber
  | some v => .ok (v, cr.2)

/-- The forward search of the `tz` case (lines 777-783): the next nonempty
literal segment. -/
def firstNonemptyLiteral : List PatternSegment → Option Str
  | [] => none
  | .literal v :: rest => if 0 < v.length then some v else firstNonemptyLiteral rest
  | .token _ :: rest => firstNonemptyLiteral rest

/-- The parse loop (lines 714-803), consuming the input from the front;
the cursor arithmetic of the source is the take/drop on the remainder. -/
def scanSegs : List PatternSegment → Str → ParseState → Except Err (ParseState × Str)
  | [], rem, st => .ok (st, rem)
  | .literal lit :: rest, rem, st =>
      if rem.take lit.length = lit then scanSegs rest (rem.drop lit.length) st
      else .error .literalMismatch
  | .token t :: rest, rem, st =>
      match t with
      | .YYYY | .yyyy => do
          let vr ← readNumberE 4 rem
          scanSegs rest vr.2 { st with year := some vr.1 }
      | .YY | .yy => do
          let vr ← readNumberE 2 rem
          scanSegs rest vr.2 { st with yearTwoDigit := some vr.1 }
      | .MM => do
          let vr ← readNumberE 2 rem
          scanSegs rest vr.2 { st with month := some vr.1 }
      | .DD => do
          let vr ← readNumberE 2 rem
          scanSegs rest vr.2 { st with day := some vr.1 }
      | .HH => do
          let vr ← readNumberE 2 rem
          scanSegs rest vr.2 { st with hour24 := some vr.1 }
      | .hh => do
          let vr ← readNumberE 2 rem
          scanSegs rest vr.2 { st with hour12 := some vr.1 }
      | .mm => do
          let vr ← readNumberE 2 rem
          scanSegs rest vr.2 { st with minute := some vr.1 }
      | .ss => do
          let vr ← readNumberE 2 rem
          scanSegs rest vr.2 { st with second := some vr.1 }
      | .aa | .AA => do
          let cr ← readFixedE 2 rem
          scanSegs rest cr.2 { st with ampm := some cr.1 }
      | .tz =>
          match firstNonemptyLiteral rest with
          | some nl =>
              match indexOfSeq nl rem with
              | none => .error .tzNotFound
              | some idx =>
                  scanSegs rest (rem.drop idx)
                    { st with timezone := some (trimStr (rem.take idx)) }
          | none => scanSegs rest [] { st with timezone := some (trimStr rem) }
      | .LM => .error .lmUnsupported

/-- Whether the segment list contains a given token. -/
def hasTok (segs : List PatternSegment) (t : TokenKey) : Bool :=
  segs.any (fun s =>
    match s with
    | .token k => k = t
    | .literal _ => false)

/-- A scanned candidate of the DST disambiguation (line 839). -/
structure CandRec where
  date : DateTz
  delta : Int
  isDst : Bool
deriving DecidableEq, Repr

/-- One candidate (lines 844-856): the instant obtained by subtracting the
offset (floored by the `DateTz` constructor), its re-derived local fields as
the getters return them, and the signed field-difference `delta`. -/
def mkCandidate (env : Env) (tzInfo : TimezoneOffset) (timezone : String)
    (baseUtc targetUtc off : Int) : CandRec :=
  let candTs := floorToMinute (baseUtc - off * MS_PER_SECOND)
  let info := computeOffsetInfoWith env tzInfo timezone candTs
  let f := msToLocal (candTs + info.offsetSeconds * MS_PER_SECOND)
  let candUtc := dateUTC f.year f.month f.day f.hour f.minute 0
  { date := { timestamp := candTs, timezone := timezone, offsetCache := none },
    delta := candUtc - targetUtc, isDst := info.isDst }

/-- The accumulator of the candidate loop (lines 840-842). -/
structure ResState where
  exacts : List CandRec
  next : Option CandRec
  prev : Option CandRec
deriving DecidableEq, Repr

/-- One pass of the candidate loop body (lines 858-873). -/
def stepCandidate (acc : ResState) (r : CandRec) : ResState :=
  if r.delta = 0 then { acc with exacts := acc.exacts ++ [r] }
  else if 0 < r.delta then
    match acc.next with
    | none => { acc with next := some r }
    | some n =>
        if r.delta < n.delta ∨ (r.delta = n.delta ∧ r.isDst ∧ ¬n.isDst) then
          { acc with next := some r }
        else acc
  else
    match acc.prev with
    | none => { acc with prev := some r }
    | some p =>
        if p.delta < r.delta ∨ (r.delta = p.delta ∧ r.isDst ∧ ¬p.isDst) then
          { acc with prev := some r }
        else acc

/-- `exactMatches.sort((a, b) => Number(b.isDst) - Number(a.isDst))`
(line 877): a stable sort of the at-most-two exact matches, bringing a
daylight-flagged record to the front. -/
def sortDstFirst : List CandRec → List CandRec
  | [a, b] => if ¬a.isDst ∧ b.isDst then [b, a] else [a, b]
  | l => l

/-- The offset list `Array.from(new Set([sdt, dst]))` (line 835). -/
def offsetsOf (info : TimezoneOffset) : List Int :=
  if info.sdt = info.dst then [info.sdt] else [info.sdt, info.dst]

/-- The final selection of `parse` (lines 875-885): the daylight-sorted
exact matches first, then the gap candidate, then the overlap candidate,
then the standard-offset fallback. -/
def chooseCandidate (rs : ResState) (fb : DateTz) : DateTz :=
  match sortDstFirst rs.exacts with
  | r :: _ => r.date
  | [] =>
      match rs.next with
      | some n => n.date
      | none =>
          match rs.prev with
          | some p => p.date
          | none => fb

/-- The instant-resolution tail of `parse` (lines 828-888), from reconciled
local fields to the chosen `DateTz`. -/
def resolveLocal (env : Env) (year month day hour minute second : Int)
    (timezone : String) : Except Err DateTz := do
  let _ ← ensureTimezone env timezone
  let baseUtc := dateUTC year month day hour minute second
  let tzInfo ← ensureTimezone env timezone
  let offsets := offsetsOf tzInfo
  let targetUtc := dateUTC year month day hour minute 0
  let res := (offsets.map (mkCandidate env tzInfo timezone baseUtc targetUtc)).foldl
    stepCandidate { exacts := [], next := none, prev := none }
  let result : DateTz := chooseCandidate res
    { timestamp := floorToMinute (baseUtc - tzInfo.sdt * MS_PER_SECOND),
      timezone := timezone, offsetCache := none }
  .ok result

/-- Field reconciliation and resolution (lines 805-888), after the scan. -/
def finishParse (env : Env) (st : ParseState) (rem : Str) (tz : Option String) :
    Except Err DateTz := do
  if rem.isEmpty then
    let year := match st.year with
      | some y => y
      | none =>
          match st.yearTwoDigit with
          | some y2 => convertTwoDigitYear y2
          | none => 1970
    let month : Int := (match st.month with | some m => m | none => 1) - 1
    let day : Int := match st.day with | some d => d | none => 1
    let minute : Int := match st.minute with | some m => m | none => 0
    let second : Int := match st.second with | some s => s | none => 0
    let hour ← match st.hour24 with
      | some h => pure h
      | none =>
          (match st.hour12 with
           | some h12 =>
              (match st.ampm with
               | none => Except.error Err.missingAmPm
               | some ap =>
                  pure (h12 % 12 + (if toUpperStr ap = "PM".data then 12 else 0)))
           | none => pure 0)
    let timezone : String := match st.timezone with
      | some cs => if 0 < cs.length then ⟨cs⟩ else tz.getD ("UTC")
      | none => tz.getD ("UTC")
    resolveLocal env year month day hour minute second timezone
  else .error .unconsumedInput

/-- `DateTz.parse` (lines 690-889). -/
def parseDT (env : Env) (dateString : Str) (pattern : Option Str) (tz : Option String) :
    Except Err DateTz := do
  let format := match pattern with
    | some p => if 0 < p.length then p else defaultFormat
    | none => defaultFormat
  let segments := tokenizePattern format
  if hasTok segments .hh ∧ ¬ (hasTok segments .aa ∨ hasTok segments .AA) then
    .error .missingMeridiem
  else do
    let sr ← scanSegs segments dateString initState
    finishParse env sr.1 sr.2 tz

/-! ## Formatting (lines 298-369) -/

/-- `String.prototype.toLowerCase` on ASCII strings. -/
def toLowerStr (cs : Str) : Str := cs.map Char.toLower

/-- Rendering of a segment list with a token-value table: the effect of
`pattern.replace(TOKEN_REGEX, ...)` (lines 362-368), where literal text and
bracketed literals pass through and tokens are substituted. -/
def renderSegs (f : TokenKey → Str) : List PatternSegment → Str
  | [] => []
  | .token t :: rest => f t ++ renderSegs f rest
  | .literal v :: rest => v ++ renderSegs f rest

/-- The token-value table of `toString` (lines 302-360) for given local
fields. -/
def tokenTable (env : Env) (d : DateTz) (parts : LocalDateTime) (locale : Str) :
    TokenKey → Str := fun t =>
  let hour12 : Int := if parts.hour % 12 = 0 then 12 else parts.hour % 12
  let ampm : Str := if 12 ≤ parts.hour then "PM".data else "AM".data
  match t with
  | .YYYY | .yyyy => intToStr parts.year
  | .YY | .yy => jsSliceNeg2 (intToStr parts.year)
  | .MM => padI (parts.month + 1) 2
  | .LM => capitalise (env.monthName parts.year parts.month locale)
  | .DD => padI parts.day 2
  | .HH => padI parts.hour 2
  | .hh => padI hour12 2
  | .mm => padI parts.minute 2
  | .ss => padI parts.second 2
  | .aa => toLowerStr ampm
  | .AA => ampm
  | .tz => d.timezone.data

/-- `toString` (lines 298-369), with its pattern/locale disambiguation. -/
def toStringDT (env : Env) (d : DateTz) (patternOrLocale : Option Str)
    (maybeLocale : Option Str) : Except Err Str := do
  let hasLocaleArgument := match maybeLocale with
    | some l => 0 < l.length
    | none => false
  let locale0 : Str := if hasLocaleArgument then maybeLocale.getD [] else "en".data
  let pl : Str × Str := match patternOrLocale with
    | some p =>
        if 0 < p.length then
          if hasLocaleArgument || containsFormattingToken p then (p, locale0)
          else if env.likelyLocale p then (defaultFormat, p)
          else (p, locale0)
        else (defaultFormat, locale0)
    | none => (defaultFormat, locale0)
  let parts ← getLocalParts env d true
  .ok (renderSegs (tokenTable env d parts pl.2) (tokenizePattern pl.1))

/-! ## Arithmetic (lines 371-658 and 1082-1155) -/

/-- `setFromLocalParts` (lines 1146-1155): format the fields (clamping the
day) and reparse them in the value's own timezone, so that reconstruction
shares the parser's DST policy. -/
def setFromLocalParts (env : Env) (d : DateTz) (parts : LocalDateTime) :
    Except Err DateTz := do
  match clampDay parts.year parts.month parts.day with
  | none => .error .invalidDay
  | some safeDay => do
      let formatted :=
        padI parts.year 4 ++ "-".data ++ padI (parts.month + 1) 2 ++ "-".data
          ++ padI safeDay 2 ++ " ".data ++ padI parts.hour 2 ++ ":".data
          ++ padI parts.minute 2 ++ ":".data ++ padI parts.second 2
      let parsed ← parseDT env formatted (some defaultFormat) (some d.timezone)
      .ok { timestamp := parsed.timestamp, timezone := parsed.timezone,
            offsetCache := none }

/-- The units `shift` (lines 1082-1109) distinguishes. -/
inductive ShiftUnit
  | millisecond | second | minute | hour | day | week | month | year
deriving DecidableEq, Repr

/-- The year/month normalization of `shiftCalendar` (lines 1115-1128),
including the source's mix of `Math.floor` division and JS `%` (truncated
remainder, `Int.tmod`) with the negative-month adjustment. -/
def shiftCalendarFields (parts : LocalDateTime) (isYear : Bool) (value : Int) :
    LocalDateTime :=
  if isYear then { parts with year := parts.year + value }
  else
    let totalMonths := parts.year * 12 + parts.month + value
    let year0 := totalMonths / 12
    let month0 := Int.tmod totalMonths 12
    let year1 := if month0 < 0 then year0 - 1 else year0
    let month1 := if month0 < 0 then month0 + 12 else month0
    { parts with year := year1, month := month1 }

mutual

/-- `shiftCalendar` (lines 1111-1131). -/
def shiftCalendarDT (env : Env) (d : DateTz) (isYear : Bool) (value : Int) :
    Except Err DateTz :=
  if value = 0 then .ok d
  else
    match getLocalParts env d true with
    | .error e => .error e
    | .ok parts =>
        let p1 := shiftCalendarFields parts isYear value
        match clampDay p1.year p1.month p1.day with
        | none => .error .invalidDay
        | some dd => setFromLocalParts env d { p1 with day := dd }

/-- `shift` (lines 1082-1109). -/
def shiftDT (env : Env) (d : DateTz) (unit : ShiftUnit) (value : Int) :
    Except Err DateTz :=
  if value = 0 then .ok d
  else
    match unit with
    | .minute =>
        .ok { timestamp := floorToMinute (d.timestamp + value * MS_PER_MINUTE),
              timezone := d.timezone, offsetCache := none }
    | .hour =>
        .ok { timestamp := floorToMinute (d.timestamp + value * MS_PER_HOUR),
              timezone := d.timezone, offsetCache := none }
    | .day =>
        .ok { timestamp := floorToMinute (d.timestamp + value * MS_PER_DAY),
              timezone := d.timezone, offsetCache := none }
    | .week =>
        .ok { timestamp := floorToMinute (d.timestamp + value * MS_PER_WEEK),
              timezone := d.timezone, offsetCache := none }
    | .month => shiftCalendarDT env d false value
    | .year => shiftCalendarDT env d true value
    | _ => .error .unsupportedUnit

end

/-- `add` (lines 371-381). -/
def addDT (env : Env) (d : DateTz) (value : Int) (unit : ShiftUnit) :
    Except Err DateTz :=
  if value = 0 then .ok d else shiftDT env d unit value

/-- `subtract` (lines 383-389). -/
def subtractDT (env : Env) (d : DateTz) (value : Int) (unit : ShiftUnit) :
    Except Err DateTz :=
  if value = 0 then .ok d else shiftDT env d unit (-value)

/-- `DURATION_ALIASES` (lines 70-83) as a lookup. -/
def durationAlias (k : String) : Option ShiftUnit :=
  if k = "minute" ∨ k = "minutes" then some .minute
  else if k = "hour" ∨ k = "hours" then some .hour
  else if k = "day" ∨ k = "days" then some .day
  else if k = "week" ∨ k = "weeks" then some .week
  else if k = "month" ∨ k = "months" then some .month
  else if k = "year" ∨ k = "years" then some .year
  else none

/-- `hasDurationUnit` (line 246). -/
def hasDurationUnit (k : String) : Bool := (durationAlias k).isSome

/-- `plus` (lines 391-407); a duration object is its entry list.  The
source's double lookup (`hasDurationUnit` then `getDurationUnit`) and its
unreachable millisecond/second rejection collapse into one alias lookup. -/
def plusDT (env : Env) (d : DateTz) (duration : List (String × Option Int)) :
    Except Err DateTz :=
  duration.foldlM (fun acc kv => do
    match durationAlias kv.1 with
    | none => Except.error Err.unsupportedUnit
    | some unit =>
        let value : Int := match kv.2 with | some v => v | none => 0
        if value = 0 then .ok acc
        else shiftDT env acc unit value) d

/-- `minus` (lines 409-421). -/
def minusDT (env : Env) (d : DateTz) (duration : List (String × Option Int)) :
    Except Err DateTz := do
  let inverted ← duration.foldlM (fun acc kv =>
    if hasDurationUnit kv.1 then
      match kv.2 with
      | none => Except.ok acc
      | some v =>
          if v = 0 then Except.ok acc
          else Except.ok (acc ++ [(kv.1, some (-v))])
    else Except.error Err.unsupportedUnit) ([] : List (String × Option Int))
  plusDT env d inverted

/-- The granularities accepted by `startOf`/`endOf`;
`normalizeGranularity` (lines 219-225) maps the accepted alias strings onto
these and rejects everything else. -/
inductive Granularity
  | minute | hour | day | week | month | year
deriving DecidableEq, Repr

/-- The field zeroing of `startOf` (lines 454-497) below a granularity. -/
def startOfFields (parts : LocalDateTime) (g : Granularity) : LocalDateTime :=
  match g with
  | .minute => { parts with second := 0 }
  | .hour => { parts with minute := 0, second := 0 }
  | .day => { parts with hour := 0, minute := 0, second := 0 }
  | .month => { parts with day := 1, hour := 0, minute := 0, second := 0 }
  | .year => { parts with month := 0, day := 1, hour := 0, minute := 0, second := 0 }
  | .week => parts

/-- The non-week branches of `startOf`: mutate fields, then reconstruct. -/
def startOfNonweek (env : Env) (d : DateTz) (g : Granularity) : Except Err DateTz := do
  let parts ← getLocalParts env d true
  setFromLocalParts env d (startOfFields parts g)

/-- `startOf` (lines 454-497); the week case recurses through start-of-day,
walks back to Sunday, and restarts the day. -/
def startOfDT (env : Env) (d : DateTz) (g : Granularity) : Except Err DateTz :=
  match g with
  | .week => do
      let d1 ← startOfNonweek env d .day
      let dow ← dayOfWeekE env d1
      if dow ≠ 0 then do
        let d2 ← shiftDT env d1 .day (-dow)
        startOfNonweek env d2 .day
      else .ok d1
  | g => startOfNonweek env d g

/-- `endOf` (lines 499-531): start of the next unit minus one minute;
end-of-minute is the identity. -/
def endOfDT (env : Env) (d : DateTz) (g : Granularity) : Except Err DateTz :=
  match g with
  | .minute => .ok d
  | .hour => do
      let a ← startOfDT env d .hour
      let b ← shiftDT env a .hour 1
      shiftDT env b .minute (-1)
  | .day => do
      let a ← startOfDT env d .day
      let b ← shiftDT env a .day 1
      shiftDT env b .minute (-1)
  | .week => do
      let a ← startOfDT env d .week
      let b ← shiftDT env a .week 1
      shiftDT env b .minute (-1)
  | .month => do
      let a ← startOfDT env d .month
      let b ← shiftDT env a .month 1
      shiftDT env b .minute (-1)
  | .year => do
      let a ← startOfDT env d .year
      let b ← shiftDT env a .year 1
      shiftDT env b .minute (-1)

/-- The units accepted by `set` (line 631). -/
inductive SetUnit
  | year | month | day | hour | minute
deriving DecidableEq, Repr

/-- The field assignment of `set` (lines 633-651). -/
def setFields (parts : LocalDateTime) (value : Int) (unit : SetUnit) : LocalDateTime :=
  match unit with
  | .year => { parts with year := value }
  | .month => { parts with month := value - 1 }
  | .day => { parts with day := value }
  | .hour => { parts with hour := value }
  | .minute => { parts with minute := value }

/-- `set` (lines 631-658): assign the field, clamp the day to the month
length and the time fields to their ranges, zero the seconds, reconstruct. -/
def setDT (env : Env) (d : DateTz) (value : Int) (unit : SetUnit) :
    Except Err DateTz := do
  let parts ← getLocalParts env d true
  let p1 := setFields parts value unit
  match clampDay p1.year p1.month p1.day with
  | none => .error .invalidDay
  | some dd =>
      let hourC : Int := max 0 (min 23 p1.hour)
      let minuteC : Int := max 0 (min 59 p1.minute)
      setFromLocalParts env d
        { p1 with day := dd, hour := hourC, minute := minuteC, second := 0 }

/-! ## Common facts and a concrete environment for witnesses -/

deriving instance DecidableEq for Except

/-- The data-model invariant of a live `DateTz` value: a minute-aligned
timestamp and a timezone that is a catalog key. -/
def Invariant (env : Env) (d : DateTz) : Prop :=
  d.timestamp % MS_PER_MINUTE = 0 ∧ (env.tzs d.timezone).isSome = true

instance (env : Env) (d : DateTz) : Decidable (Invariant env d) := by
  unfold Invariant
  exact instDecidableAnd

theorem ok_bind {A B : Type} (a : A) (f : A → Except Err B) :
    (Except.ok a >>= f) = f a := rfl

theorem floorToMinute_mod (t : Int) : floorToMinute t % MS_PER_MINUTE = 0 := by
  unfold floorToMinute MS_PER_MINUTE
  omega

theorem floorToMinute_aligned (t : Int) (h : t % MS_PER_MINUTE = 0) :
    floorToMinute t = t := by
  unfold floorToMinute MS_PER_MINUTE at *
  omega

/-- A small concrete environment used by the closed witness statements: a
three-entry catalog and a host offset service with the 2021 daylight windows
of the two daylight-observing zones. -/
def demoEnv : Env :=
  { tzs := fun s =>
      if s = "UTC" then some { sdt := 0, dst := 0 }
      else if s = "America/New_York" then some { sdt := -18000, dst := -14400 }
      else if s = "Europe/Rome" then some { sdt := 3600, dst := 7200 }
      else none
    intl := fun s t =>
      if s = "America/New_York" then
        some (if 1615705200000 ≤ t ∧ t < 1636264800000 then -14400 else -18000)
      else if s = "Europe/Rome" then
        some (if 1616893200000 ≤ t ∧ t < 1635642000000 then 7200 else 3600)
      else none
    monthName := fun _ _ _ => "Month".data
    likelyLocale := fun _ => false }

/-! ## Claim C4: offset resolution -/

/-- C4: for every catalog timezone id and every instant, offset resolution
satisfies: a fixed-offset entry (equal offsets) yields
`{standardOffset, isDaylight := false}` for every host service, i.e. without
consulting it; a host service returning no offset yields
`{standardOffset, isDaylight := false}`; a computed offset matching neither
catalog offset yields it with `isDaylight` true exactly when it exceeds the
standard offset; otherwise the computed offset is returned with `isDaylight`
true exactly when it equals the daylight offset. -/
theorem c4_offset_resolution (env : Env) (id : String) (info : TimezoneOffset)
    (ts : Int) (hcat : env.tzs id = some info) :
    (info.dst = info.sdt →
      ∀ f, computeOffsetInfo { env with intl := f } id ts
        = .ok { offsetSeconds := info.sdt, isDst := false })
    ∧ (env.intl id ts = none →
        computeOffsetInfo env id ts = .ok { offsetSeconds := info.sdt, isDst := false })
    ∧ (∀ o, env.intl id ts = some o → info.dst ≠ info.sdt →
        o ≠ info.sdt → o ≠ info.dst →
        ∃ r, computeOffsetInfo env id ts = .ok r ∧ r.offsetSeconds = o
          ∧ (r.isDst = true ↔ info.sdt < o))
    ∧ (∀ o, env.intl id ts = some o → info.dst ≠ info.sdt →
        (o = info.sdt ∨ o = info.dst) →
        ∃ r, computeOffsetInfo env id ts = .ok r ∧ r.offsetSeconds = o
          ∧ (r.isDst = true ↔ o = info.dst)) := by
  unfold computeOffsetInfo ensureTimezone
  refine ⟨?_, ?_, ?_, ?_⟩
  · intro heq f
    simp only [hcat, ok_bind]
    unfold computeOffsetInfoWith
    simp only [heq, if_pos]
  · intro hnone
    simp only [hcat, ok_bind]
    unfold computeOffsetInfoWith
    split
    · rfl
    · rw [hnone]
  · intro o ho hne h1 h2
    simp only [hcat, ok_bind]
    unfold computeOffsetInfoWith
    rw [if_neg hne, ho]
    dsimp only
    rw [if_pos ⟨h1, h2⟩]
    exact ⟨_, rfl, rfl, by simp⟩
  · intro o ho hne hor
    simp only [hcat, ok_bind]
    unfold computeOffsetInfoWith
    rw [if_neg hne, ho]
    dsimp only
    have hnotand : ¬ (o ≠ info.sdt ∧ o ≠ info.dst) := by tauto
    rw [if_neg hnotand]
    exact ⟨_, rfl, rfl, by simp⟩

/-- Witness for C4 at the concrete catalog entry of `America/New_York`. -/
theorem c4_offset_resolution_witness :
    (({ sdt := -18000, dst := -14400 } : TimezoneOffset).dst
        = ({ sdt := -18000, dst := -14400 } : TimezoneOffset).sdt →
      ∀ f, computeOffsetInfo { demoEnv with intl := f } ("America/New_York") 0
        = .ok { offsetSeconds := -18000, isDst := false })
    ∧ (demoEnv.intl ("America/New_York") 0 = none →
        computeOffsetInfo demoEnv ("America/New_York") 0
          = .ok { offsetSeconds := -18000, isDst := false })
    ∧ (∀ o, demoEnv.intl ("America/New_York") 0 = some o →
        (-14400 : Int) ≠ -18000 → o ≠ -18000 → o ≠ -14400 →
        ∃ r, computeOffsetInfo demoEnv ("America/New_York") 0 = .ok r
          ∧ r.offsetSeconds = o ∧ (r.isDst = true ↔ (-18000 : Int) < o))
    ∧ (∀ o, demoEnv.intl ("America/New_York") 0 = some o →
        (-14400 : Int) ≠ -18000 → (o = -18000 ∨ o = -14400) →
        ∃ r, computeOffsetInfo demoEnv ("America/New_York") 0 = .ok r
          ∧ r.offsetSeconds = o ∧ (r.isDst = true ↔ o = -14400)) := by
  exact c4_offset_resolution demoEnv ("America/New_York")
    { sdt := -18000, dst := -14400 } 0 (by decide)

/-! ## Claim C6: comparability -/

/-- C6: `compare` between two `DateTz` values fails with the
incomparable-timezones error whenever the timezone ids differ, regardless of
the timestamps, and returns the signed timestamp difference when they
agree. -/
theorem c6_compare (a b : DateTz) :
    (a.timezone ≠ b.timezone → compareDT a b = .error .cannotCompare)
    ∧ (a.timezone = b.timezone → compareDT a b = .ok (a.timestamp - b.timestamp)) := by
  unfold compareDT ensureComparable isComparable
  constructor
  · intro hne
    rw [if_neg (by simpa using hne)]
    rfl
  · intro heq
    rw [if_pos (by simpa using heq)]
    rfl

/-- Witness for C6: two values at the same instant in different zones are
incomparable; two UTC values compare by difference. -/
theorem c6_compare_witness :
    (("UTC" : String) ≠ ("Europe/Rome" : String) →
      compareDT { timestamp := 0, timezone := "UTC", offsetCache := none }
        { timestamp := 0, timezone := "Europe/Rome", offsetCache := none }
        = .error .cannotCompare)
    ∧ (("UTC" : String) = ("UTC" : String) →
      compareDT { timestamp := 120000, timezone := "UTC", offsetCache := none }
        { timestamp := 60000, timezone := "UTC", offsetCache := none }
        = .ok (120000 - 60000)) := by
  exact ⟨(c6_compare { timestamp := 0, timezone := "UTC", offsetCache := none }
      { timestamp := 0, timezone := "Europe/Rome", offsetCache := none }).1,
    (c6_compare { timestamp := 120000, timezone := "UTC", offsetCache := none }
      { timestamp := 60000, timezone := "UTC", offsetCache := none }).2⟩

/-! ## Claim C8: zero-valued add/subtract is a strict no-op -/

/-- C8: for every environment, value and unit accepted by `add`/`subtract`,
a zero-valued call returns the receiver itself: timestamp, timezone and the
offset cache are all unchanged, and the result does not depend on the
environment, so no local-field reconstruction or host lookup happens. -/
theorem c8_zero_add_subtract (env : Env) (d : DateTz) (u : ShiftUnit) :
    addDT env d 0 u = .ok d ∧ subtractDT env d 0 u = .ok d := by
  unfold addDT subtractDT
  exact ⟨by rw [if_pos rfl], by rw [if_pos rfl]⟩

/-! ## Claim C10: cloneToTimezone -/

/-- C10: for every `DateTz` value `d` (minute-aligned, as every constructed
value is) and catalog timezone id `tz`, `cloneToTimezone` leaves `d` itself
untouched and returns a fresh value whose timestamp equals `d.timestamp`,
whose timezone is `tz`, and whose offset cache is empty (hence independent
of `d`'s). -/
theorem c10_cloneToTimezone (env : Env) (d : DateTz) (tz : String)
    (info : TimezoneOffset) (hcat : env.tzs tz = some info)
    (halign : d.timestamp % MS_PER_MINUTE = 0) :
    cloneToTimezone env d tz
      = .ok (d, { timestamp := d.timestamp, timezone := tz, offsetCache := none }) := by
  unfold cloneToTimezone ensureTimezone
  rw [hcat]
  simp only [ok_bind]
  rw [floorToMinute_aligned d.timestamp halign]

/-- Witness for C10 at a concrete value and catalog zone. -/
theorem c10_cloneToTimezone_witness :
    cloneToTimezone demoEnv
      { timestamp := 1609459200000, timezone := "UTC", offsetCache := none }
      ("Europe/Rome")
      = .ok ({ timestamp := 1609459200000, timezone := "UTC", offsetCache := none },
             { timestamp := 1609459200000, timezone := "Europe/Rome",
               offsetCache := none }) := by
  exact c10_cloneToTimezone demoEnv
    { timestamp := 1609459200000, timezone := "UTC", offsetCache := none }
    ("Europe/Rome") { sdt := 3600, dst := 7200 } (by decide) (by decide)

/-! ## Claim C7: the 12-hour pattern needs a meridiem token -/

theorem error_bind {A B : Type} (e : Err) (f : A → Except Err B) :
    (Except.error e >>= f : Except Err B) = .error e := rfl

theorem readFixedE_ne_mm (len : Nat) (rem : Str) :
    readFixedE len rem ≠ .error .missingMeridiem := by
  unfold readFixedE
  dsimp only
  split <;> simp

theorem readNumberE_ne_mm (len : Nat) (rem : Str) :
    readNumberE len rem ≠ .error .missingMeridiem := by
  unfold readNumberE
  cases hr : readFixedE len rem with
  | error e =>
      rw [error_bind]
      intro hc
      injection hc with he
      exact readFixedE_ne_mm len rem (he ▸ hr)
  | ok cr =>
      rw [ok_bind]
      split <;> simp

theorem ensureTimezone_ne_mm (env : Env) (id : String) :
    ensureTimezone env id ≠ .error .missingMeridiem := by
  unfold ensureTimezone
  cases env.tzs id <;> simp

theorem resolveLocal_ne_mm (env : Env) (y mo da h mi s : Int) (tz : String) :
    resolveLocal env y mo da h mi s tz ≠ .error .missingMeridiem := by
  unfold resolveLocal
  cases h1 : ensureTimezone env tz with
  | error e =>
      rw [error_bind]
      intro hc
      injection hc with he
      exact ensureTimezone_ne_mm env tz (he ▸ h1)
  | ok info =>
      simp only [ok_bind]
      simp

theorem scanSegs_ne_mm (segs : List PatternSegment) (input : Str) (st : ParseState) :
    scanSegs segs input st ≠ .error .missingMeridiem := by
  induction segs generalizing input st with
  | nil => simp [scanSegs]
  | cons s rest ih =>
    cases s with
    | literal lit =>
        simp only [scanSegs]
        split
        · exact ih _ _
        · simp
    | token t =>
        have hnum : ∀ (len : Nat) (upd : Int → ParseState),
            (do
              let vr ← readNumberE len input
              scanSegs rest vr.2 (upd vr.1)) ≠ Except.error Err.missingMeridiem := by
          intro len upd
          cases hr : readNumberE len input with
          | error e =>
              rw [error_bind]
              intro hc
              injection hc with he
              exact readNumberE_ne_mm len input (he ▸ hr)
          | ok vr =>
              rw [ok_bind]
              exact ih _ _
        cases t with
        | YYYY => simp only [scanSegs]; exact hnum 4 (fun v => { st with year := some v })
        | yyyy => simp only [scanSegs]; exact hnum 4 (fun v => { st with year := some v })
        | YY => simp only [scanSegs]; exact hnum 2 (fun v => { st with yearTwoDigit := some v })
        | yy => simp only [scanSegs]; exact hnum 2 (fun v => { st with yearTwoDigit := some v })
        | MM => simp only [scanSegs]; exact hnum 2 (fun v => { st with month := some v })
        | DD => simp only [scanSegs]; exact hnum 2 (fun v => { st with day := some v })
        | HH => simp only [scanSegs]; exact hnum 2 (fun v => { st with hour24 := some v })
        | hh => simp only [scanSegs]; exact hnum 2 (fun v => { st with hour12 := some v })
        | mm => simp only [scanSegs]; exact hnum 2 (fun v => { st with minute := some v })
        | ss => simp only [scanSegs]; exact hnum 2 (fun v => { st with second := some v })
        | aa =>
            simp only [scanSegs]
            cases hr : readFixedE 2 input with
            | error e =>
                rw [error_bind]
                intro hc
                injection hc with he
                exact readFixedE_ne_mm 2 input (he ▸ hr)
            | ok cr =>
                rw [ok_bind]
                exact ih _ _
        | AA =>
            simp only [scanSegs]
            cases hr : readFixedE 2 input with
            | error e =>
                rw [error_bind]
                intro hc
                injection hc with he
                exact readFixedE_ne_mm 2 input (he ▸ hr)
            | ok cr =>
                rw [ok_bind]
                exact ih _ _
        | tz =>
            simp only [scanSegs]
            intro hc
            split at hc
            · split at hc
              · exact absurd hc (by simp)
              · exact ih _ _ hc
            · exact ih _ _ hc
        | LM => simp [scanSegs]

theorem finishParse_ne_mm (env : Env) (st : ParseState) (rem : Str)
    (tz : Option String) : finishParse env st rem tz ≠ .error .missingMeridiem := by
  unfold finishParse
  split
  · cases st.hour24 with
    | some h =>
        simp only [ok_bind]
        exact resolveLocal_ne_mm env _ _ _ _ _ _ _
    | none =>
        cases st.hour12 with
        | some h12 =>
            cases st.ampm with
            | none => simp [error_bind]
            | some ap =>
                simp only [ok_bind]
                exact resolveLocal_ne_mm env _ _ _ _ _ _ _
        | none =>
            simp only [ok_bind]
            exact resolveLocal_ne_mm env _ _ _ _ _ _ _
  · simp

/-- C7: a pattern whose tokens include `hh` but neither `aa` nor `AA` makes
`parse` fail with the missing-meridiem error uniformly in the input string
(so before consuming any character of it); with a meridiem token present the
missing-meridiem error can never be produced, whatever the input. -/
theorem c7_missing_meridiem (env : Env) (p : Str) (tz : Option String)
    (hhh : hasTok (tokenizePattern p) .hh = true) :
    ((hasTok (tokenizePattern p) .aa || hasTok (tokenizePattern p) .AA) = false →
      ∀ input, parseDT env input (some p) tz = .error .missingMeridiem)
    ∧ ((hasTok (tokenizePattern p) .aa || hasTok (tokenizePattern p) .AA) = true →
      ∀ input, parseDT env input (some p) tz ≠ .error .missingMeridiem) := by
  have hp : 0 < p.length := by
    cases p with
    | nil => simp [tokenizePattern, tokenizeAux, flushLit, hasTok] at hhh
    | cons c cs => simp
  constructor
  · intro hno input
    unfold parseDT
    dsimp only
    rw [if_pos hp]
    rw [if_pos ?hcond]
    case hcond =>
      simp only [Bool.or_eq_false_iff] at hno
      refine ⟨hhh, ?_⟩
      simp [hno.1, hno.2]
  · intro hyes input
    unfold parseDT
    dsimp only
    rw [if_pos hp]
    rw [if_neg ?hcond2]
    case hcond2 =>
      intro hc
      rcases hc with ⟨_, hnot⟩
      simp only [Bool.or_eq_true] at hyes
      rcases hyes with h | h
      · exact hnot (Or.inl (by simp [h]))
      · exact hnot (Or.inr (by simp [h]))
    cases hs : scanSegs (tokenizePattern p) input initState with
    | error e =>
        rw [error_bind]
        intro hc
        injection hc with he
        exact scanSegs_ne_mm _ input initState (he ▸ hs)
    | ok sr =>
        rw [ok_bind]
        exact finishParse_ne_mm env sr.1 sr.2 tz

/-- Witness for C7 at the pattern `hh:mm` (and `hh:mm AA` for the second
half). -/
theorem c7_missing_meridiem_witness :
    ((hasTok (tokenizePattern ("hh:mm".data)) .aa
        || hasTok (tokenizePattern ("hh:mm".data)) .AA) = false →
      ∀ input, parseDT demoEnv input (some ("hh:mm".data)) none
        = .error .missingMeridiem)
    ∧ ((hasTok (tokenizePattern ("hh:mm".data)) .aa
        || hasTok (tokenizePattern ("hh:mm".data)) .AA) = true →
      ∀ input, parseDT demoEnv input (some ("hh:mm".data)) none
        ≠ .error .missingMeridiem) := by
  exact c7_missing_meridiem demoEnv ("hh:mm".data) none (by decide)

/-! ## Claim C2: the data-model invariant -/

theorem bind_ok {A B : Type} (ma : Except Err A) (f : A → Except Err B) (b : B)
    (h : (ma >>= f) = .ok b) : ∃ a, ma = .ok a ∧ f a = .ok b := by
  cases ma with
  | error e => rw [error_bind] at h; exact absurd h (by simp)
  | ok a => rw [ok_bind] at h; exact ⟨a, rfl, h⟩

theorem ensureTimezone_ok (env : Env) (id : String) (info : TimezoneOffset)
    (h : ensureTimezone env id = .ok info) : env.tzs id = some info := by
  unfold ensureTimezone at h
  cases hc : env.tzs id with
  | none => rw [hc] at h; exact absurd h (by simp)
  | some i => rw [hc] at h; injection h with he; rw [he]

/-- The candidate facts preserved through the resolution fold. -/
def CandP (tzS : String) (r : CandRec) : Prop :=
  r.date.timezone = tzS ∧ r.date.timestamp % MS_PER_MINUTE = 0
    ∧ r.date.offsetCache = none

/-- All records reachable from a `ResState`. -/
def ResOk (tzS : String) (rs : ResState) : Prop :=
  (∀ r ∈ rs.exacts, CandP tzS r)
  ∧ (∀ r, rs.next = some r → CandP tzS r)
  ∧ (∀ r, rs.prev = some r → CandP tzS r)

theorem mkCandidate_candP (env : Env) (tzInfo : TimezoneOffset) (tzS : String)
    (b t off : Int) : CandP tzS (mkCandidate env tzInfo tzS b t off) := by
  unfold mkCandidate CandP
  exact ⟨rfl, floorToMinute_mod _, rfl⟩

theorem stepCandidate_resOk (tzS : String) (acc : ResState) (r : CandRec)
    (hacc : ResOk tzS acc) (hr : CandP tzS r) : ResOk tzS (stepCandidate acc r) := by
  obtain ⟨he, hn, hp⟩ := hacc
  unfold stepCandidate
  split
  · refine ⟨?_, hn, hp⟩
    intro x hx
    rcases List.mem_append.mp hx with h | h
    · exact he x h
    · rw [List.mem_singleton.mp h]; exact hr
  · split
    · split
      · refine ⟨he, ?_, hp⟩
        intro x hx
        injection hx with h
        rw [← h]; exact hr
      · split
        · refine ⟨he, ?_, hp⟩
          intro x hx
          injection hx with h
          rw [← h]; exact hr
        · exact ⟨he, hn, hp⟩
    · split
      · refine ⟨he, hn, ?_⟩
        intro x hx
        injection hx with h
        rw [← h]; exact hr
      · split
        · refine ⟨he, hn, ?_⟩
          intro x hx
          injection hx with h
          rw [← h]; exact hr
        · exact ⟨he, hn, hp⟩

theorem foldl_resOk (tzS : String) (l : List CandRec) (init : ResState)
    (hinit : ResOk tzS init) (hl : ∀ r ∈ l, CandP tzS r) :
    ResOk tzS (l.foldl stepCandidate init) := by
  induction l generalizing init with
  | nil => exact hinit
  | cons x xs ih =>
      simp only [List.foldl_cons]
      exact ih (stepCandidate init x)
        (stepCandidate_resOk tzS init x hinit (hl x (by simp)))
        (fun r hr => hl r (List.mem_cons_of_mem x hr))

theorem sortDstFirst_subset (l : List CandRec) (r : CandRec)
    (h : r ∈ sortDstFirst l) : r ∈ l := by
  unfold sortDstFirst at h
  split at h
  · split at h <;> simp_all <;> tauto
  · exact h

/-- `resolveLocal` always yields a minute-aligned value in the requested
catalog timezone. -/
theorem resolveLocal_inv (env : Env) (y mo da h mi s : Int) (tzS : String)
    (d : DateTz) (hok : resolveLocal env y mo da h mi s tzS = .ok d) :
    Invariant env d ∧ d.timezone = tzS ∧ d.offsetCache = none := by
  unfold resolveLocal at hok
  obtain ⟨i0, hi0, hok⟩ := bind_ok _ _ _ hok
  obtain ⟨tzInfo, hti, hok⟩ := bind_ok _ _ _ hok
  have hcat := ensureTimezone_ok env tzS tzInfo hti
  have hres : ResOk tzS (((offsetsOf tzInfo).map
      (mkCandidate env tzInfo tzS (dateUTC y mo da h mi s) (dateUTC y mo da h mi 0))).foldl
      stepCandidate { exacts := [], next := none, prev := none }) := by
    apply foldl_resOk
    · exact ⟨by simp, by simp, by simp⟩
    · intro r hr
      obtain ⟨off, _, hoff⟩ := List.mem_map.mp hr
      rw [← hoff]
      exact mkCandidate_candP env tzInfo tzS _ _ off
  set rs := ((offsetsOf tzInfo).map
      (mkCandidate env tzInfo tzS (dateUTC y mo da h mi s) (dateUTC y mo da h mi 0))).foldl
      stepCandidate { exacts := [], next := none, prev := none } with hrs
  obtain ⟨hex, hnx, hpv⟩ := hres
  have hsome : (env.tzs tzS).isSome = true := by rw [hcat]; rfl
  simp only [chooseCandidate] at hok
  injection hok with hd
  split at hd
  · rename_i r rest hsort
    have hmem : r ∈ rs.exacts := by
      have hr : r ∈ sortDstFirst rs.exacts := by rw [hsort]; simp
      exact sortDstFirst_subset _ _ hr
    obtain ⟨h1, h2, h3⟩ := hex r hmem
    rw [← hd]
    exact ⟨⟨h2, h1 ▸ hsome⟩, h1, h3⟩
  · split at hd
    · rename_i n hn
      obtain ⟨h1, h2, h3⟩ := hnx n hn
      rw [← hd]
      exact ⟨⟨h2, h1 ▸ hsome⟩, h1, h3⟩
    · split at hd
      · rename_i p hp
        obtain ⟨h1, h2, h3⟩ := hpv p hp
        rw [← hd]
        exact ⟨⟨h2, h1 ▸ hsome⟩, h1, h3⟩
      · rw [← hd]
        exact ⟨⟨floorToMinute_mod _, hsome⟩, rfl, rfl⟩

theorem newDateTz_inv (env : Env) (v : Int) (tz : Option String) (d : DateTz)
    (hok : newDateTz env v tz = .ok d) :
    Invariant env d ∧ d.offsetCache = none := by
  unfold newDateTz at hok
  obtain ⟨info, hi, hok⟩ := bind_ok _ _ _ hok
  injection hok with hd
  rw [← hd]
  exact ⟨⟨floorToMinute_mod _, by rw [ensureTimezone_ok env _ info hi]; rfl⟩, rfl⟩

theorem finishParse_inv (env : Env) (st : ParseState) (rem : Str)
    (tz : Option String) (d : DateTz) (hok : finishParse env st rem tz = .ok d) :
    Invariant env d ∧ d.offsetCache = none := by
  unfold finishParse at hok
  split at hok
  · simp only at hok
    split at hok
    · obtain ⟨hh, _, hres⟩ := bind_ok _ _ _ hok
      obtain ⟨hi, _, hc⟩ := resolveLocal_inv env _ _ _ _ _ _ _ _ hres
      exact ⟨hi, hc⟩
    · obtain ⟨hh, _, hres⟩ := bind_ok _ _ _ hok
      obtain ⟨hi, _, hc⟩ := resolveLocal_inv env _ _ _ _ _ _ _ _ hres
      exact ⟨hi, hc⟩
  · exact absurd hok (by simp)

theorem parseDT_inv (env : Env) (input : Str) (pat : Option Str)
    (tz : Option String) (d : DateTz) (hok : parseDT env input pat tz = .ok d) :
    Invariant env d ∧ d.offsetCache = none := by
  unfold parseDT at hok
  simp only at hok
  split at hok
  · exact absurd hok (by simp)
  · obtain ⟨sr, _, hf⟩ := bind_ok _ _ _ hok
    exact finishParse_inv env sr.1 sr.2 tz d hf

theorem setFromLocalParts_inv (env : Env) (d : DateTz) (parts : LocalDateTime)
    (r : DateTz) (hok : setFromLocalParts env d parts = .ok r) :
    Invariant env r ∧ r.offsetCache = none := by
  unfold setFromLocalParts at hok
  split at hok
  · exact absurd hok (by simp)
  · simp only at hok
    obtain ⟨parsed, hp, hr⟩ := bind_ok _ _ _ hok
    injection hr with hr
    obtain ⟨⟨h1, h2⟩, _⟩ := parseDT_inv env _ _ _ parsed hp
    rw [← hr]
    exact ⟨⟨h1, h2⟩, rfl⟩

theorem shiftCalendarDT_inv (env : Env) (d : DateTz) (isYear : Bool) (value : Int)
    (hInv : Invariant env d) (r : DateTz)
    (hok : shiftCalendarDT env d isYear value = .ok r) : Invariant env r := by
  unfold shiftCalendarDT at hok
  split at hok
  · injection hok with h; rw [← h]; exact hInv
  · split at hok
    · exact absurd hok (by simp)
    · simp only at hok
      split at hok
      · exact absurd hok (by simp)
      · exact (setFromLocalParts_inv env d _ r hok).1

theorem shiftDT_inv (env : Env) (d : DateTz) (unit : ShiftUnit) (value : Int)
    (hInv : Invariant env d) (r : DateTz)
    (hok : shiftDT env d unit value = .ok r) : Invariant env r := by
  unfold shiftDT at hok
  split at hok
  · injection hok with h; rw [← h]; exact hInv
  · cases unit with
    | minute => injection hok with h; rw [← h]; exact ⟨floorToMinute_mod _, hInv.2⟩
    | hour => injection hok with h; rw [← h]; exact ⟨floorToMinute_mod _, hInv.2⟩
    | day => injection hok with h; rw [← h]; exact ⟨floorToMinute_mod _, hInv.2⟩
    | week => injection hok with h; rw [← h]; exact ⟨floorToMinute_mod _, hInv.2⟩
    | month => exact shiftCalendarDT_inv env d false value hInv r hok
    | year => exact shiftCalendarDT_inv env d true value hInv r hok
    | millisecond => exact absurd hok (by simp)
    | second => exact absurd hok (by simp)

theorem addDT_inv (env : Env) (d : DateTz) (value : Int) (unit : ShiftUnit)
    (hInv : Invariant env d) (r : DateTz)
    (hok : addDT env d value unit = .ok r) : Invariant env r := by
  unfold addDT at hok
  split at hok
  · injection hok with h; rw [← h]; exact hInv
  · exact shiftDT_inv env d unit value hInv r hok

theorem subtractDT_inv (env : Env) (d : DateTz) (value : Int) (unit : ShiftUnit)
    (hInv : Invariant env d) (r : DateTz)
    (hok : subtractDT env d value unit = .ok r) : Invariant env r := by
  unfold subtractDT at hok
  split at hok
  · injection hok with h; rw [← h]; exact hInv
  · exact shiftDT_inv env d unit (-value) hInv r hok

theorem plusDT_inv (env : Env) (d : DateTz) (dur : List (String × Option Int))
    (hInv : Invariant env d) (r : DateTz)
    (hok : plusDT env d dur = .ok r) : Invariant env r := by
  unfold plusDT at hok
  induction dur generalizing d with
  | nil => injection hok with h; rw [← h]; exact hInv
  | cons kv rest ih =>
      rw [List.foldlM_cons] at hok
      obtain ⟨d1, h1, h2⟩ := bind_ok _ _ _ hok
      refine ih d1 ?_ h2
      split at h1
      · exact absurd h1 (by simp)
      · simp only at h1
        split at h1
        · injection h1 with h; rw [← h]; exact hInv
        · exact shiftDT_inv env d _ _ hInv d1 h1

theorem minusDT_inv (env : Env) (d : DateTz) (dur : List (String × Option Int))
    (hInv : Invariant env d) (r : DateTz)
    (hok : minusDT env d dur = .ok r) : Invariant env r := by
  unfold minusDT at hok
  obtain ⟨inv, _, hp⟩ := bind_ok _ _ _ hok
  exact plusDT_inv env d inv hInv r hp

theorem startOfNonweek_inv (env : Env) (d : DateTz) (g : Granularity) (r : DateTz)
    (hok : startOfNonweek env d g = .ok r) : Invariant env r := by
  unfold startOfNonweek at hok
  obtain ⟨parts, _, hs⟩ := bind_ok _ _ _ hok
  exact (setFromLocalParts_inv env d _ r hs).1

theorem startOfDT_inv (env : Env) (d : DateTz) (g : Granularity)
    (hInv : Invariant env d) (r : DateTz)
    (hok : startOfDT env d g = .ok r) : Invariant env r := by
  cases g with
  | week =>
      unfold startOfDT at hok
      obtain ⟨d1, h1, hok⟩ := bind_ok _ _ _ hok
      have hInv1 := startOfNonweek_inv env d .day d1 h1
      obtain ⟨dow, _, hok⟩ := bind_ok _ _ _ hok
      revert hok
      split
      · intro hok
        obtain ⟨d2, h2, hok⟩ := bind_ok _ _ _ hok
        have hInv2 := shiftDT_inv env d1 .day (-dow) hInv1 d2 h2
        exact startOfNonweek_inv env d2 .day r hok
      · intro hok; injection hok with h; rw [← h]; exact hInv1
  | minute => exact startOfNonweek_inv env d _ r hok
  | hour => exact startOfNonweek_inv env d _ r hok
  | day => exact startOfNonweek_inv env d _ r hok
  | month => exact startOfNonweek_inv env d _ r hok
  | year => exact startOfNonweek_inv env d _ r hok

theorem endOfDT_inv (env : Env) (d : DateTz) (g : Granularity)
    (hInv : Invariant env d) (r : DateTz)
    (hok : endOfDT env d g = .ok r) : Invariant env r := by
  have hchain : ∀ (g1 : Granularity) (u1 : ShiftUnit),
      (do
        let a ← startOfDT env d g1
        let b ← shiftDT env a u1 1
        shiftDT env b .minute (-1)) = .ok r → Invariant env r := by
    intro g1 u1 h
    obtain ⟨a, ha, h⟩ := bind_ok _ _ _ h
    obtain ⟨b, hb, h⟩ := bind_ok _ _ _ h
    have hia := startOfDT_inv env d g1 hInv a ha
    have hib := shiftDT_inv env a u1 1 hia b hb
    exact shiftDT_inv env b .minute (-1) hib r h
  cases g with
  | minute =>
      unfold endOfDT at hok
      injection hok with h; rw [← h]; exact hInv
  | hour => exact hchain .hour .hour hok
  | day => exact hchain .day .day hok
  | week => exact hchain .week .week hok
  | month => exact hchain .month .month hok
  | year => exact hchain .year .year hok

theorem setDT_inv (env : Env) (d : DateTz) (value : Int) (unit : SetUnit)
    (r : DateTz) (hok : setDT env d value unit = .ok r) : Invariant env r := by
  unfold setDT at hok
  obtain ⟨parts, _, hok⟩ := bind_ok _ _ _ hok
  simp only at hok
  split at hok
  · exact absurd hok (by simp)
  · exact (setFromLocalParts_inv env d _ r hok).1

theorem convertToTimezone_inv (env : Env) (d : DateTz) (tz : String)
    (hInv : Invariant env d) (r : DateTz)
    (hok : convertToTimezone env d tz = .ok r) : Invariant env r := by
  unfold convertToTimezone at hok
  obtain ⟨info, hi, hok⟩ := bind_ok _ _ _ hok
  injection hok with h
  rw [← h]
  exact ⟨hInv.1, by rw [ensureTimezone_ok env tz info hi]; rfl⟩

theorem cloneToTimezone_inv (env : Env) (d : DateTz) (tz : String)
    (hInv : Invariant env d) (p : DateTz × DateTz)
    (hok : cloneToTimezone env d tz = .ok p) :
    Invariant env p.1 ∧ Invariant env p.2 := by
  unfold cloneToTimezone at hok
  obtain ⟨info, hi, hok⟩ := bind_ok _ _ _ hok
  injection hok with h
  rw [← h]
  exact ⟨hInv, floorToMinute_mod _, by rw [ensureTimezone_ok env tz info hi]; rfl⟩

theorem hydrateDT_inv (env : Env) (ts : Int) (tzField : Option String)
    (tz : Option String) (r : DateTz) (hok : hydrateDT env ts tzField tz = .ok r) :
    Invariant env r := by
  unfold hydrateDT at hok
  exact (newDateTz_inv env ts _ r hok).1

/-- C2: construction and every public operation establish or preserve the
invariant: the timestamp is minute-aligned (a multiple of 60000 ms) and the
timezone is a key of the catalog. -/
theorem c2_invariant (env : Env) (d : DateTz) (hInv : Invariant env d) :
    (∀ v tzArg r, newDateTz env v tzArg = .ok r → Invariant env r)
    ∧ (∀ value unit r, addDT env d value unit = .ok r → Invariant env r)
    ∧ (∀ value unit r, subtractDT env d value unit = .ok r → Invariant env r)
    ∧ (∀ dur r, plusDT env d dur = .ok r → Invariant env r)
    ∧ (∀ dur r, minusDT env d dur = .ok r → Invariant env r)
    ∧ (∀ value unit r, setDT env d value unit = .ok r → Invariant env r)
    ∧ (∀ g r, startOfDT env d g = .ok r → Invariant env r)
    ∧ (∀ g r, endOfDT env d g = .ok r → Invariant env r)
    ∧ (∀ tz r, convertToTimezone env d tz = .ok r → Invariant env r)
    ∧ (∀ tz p, cloneToTimezone env d tz = .ok p →
        Invariant env p.1 ∧ Invariant env p.2)
    ∧ (∀ input pat tzArg r, parseDT env input pat tzArg = .ok r → Invariant env r)
    ∧ (∀ ts tzField tzArg r, hydrateDT env ts tzField tzArg = .ok r →
        Invariant env r) := by
  refine ⟨?_, ?_, ?_, ?_, ?_, ?_, ?_, ?_, ?_, ?_, ?_, ?_⟩
  · intro v tzArg r h; exact (newDateTz_inv env v tzArg r h).1
  · intro value unit r h; exact addDT_inv env d value unit hInv r h
  · intro value unit r h; exact subtractDT_inv env d value unit hInv r h
  · intro dur r h; exact plusDT_inv env d dur hInv r h
  · intro dur r h; exact minusDT_inv env d dur hInv r h
  · intro value unit r h; exact setDT_inv env d value unit r h
  · intro g r h; exact startOfDT_inv env d g hInv r h
  · intro g r h; exact endOfDT_inv env d g hInv r h
  · intro tz r h; exact convertToTimezone_inv env d tz hInv r h
  · intro tz p h; exact cloneToTimezone_inv env d tz hInv p h
  · intro input pat tzArg r h; exact (parseDT_inv env input pat tzArg r h).1
  · intro ts tzField tzArg r h; exact hydrateDT_inv env ts tzField tzArg r h

/-- Witness for C2 at a concrete value in the demo environment. -/
theorem c2_invariant_witness :
    Invariant demoEnv { timestamp := 1609459200000, timezone := "UTC", offsetCache := none }
    ∧ ((∀ v tzArg r, newDateTz demoEnv v tzArg = .ok r → Invariant demoEnv r)
    ∧ (∀ value unit r, addDT demoEnv
        { timestamp := 1609459200000, timezone := "UTC", offsetCache := none }
        value unit = .ok r → Invariant demoEnv r)
    ∧ (∀ value unit r, subtractDT demoEnv
        { timestamp := 1609459200000, timezone := "UTC", offsetCache := none }
        value unit = .ok r → Invariant demoEnv r)
    ∧ (∀ dur r, plusDT demoEnv
        { timestamp := 1609459200000, timezone := "UTC", offsetCache := none }
        dur = .ok r → Invariant demoEnv r)
    ∧ (∀ dur r, minusDT demoEnv
        { timestamp := 1609459200000, timezone := "UTC", offsetCache := none }
        dur = .ok r → Invariant demoEnv r)
    ∧ (∀ value unit r, setDT demoEnv
        { timestamp := 1609459200000, timezone := "UTC", offsetCache := none }
        value unit = .ok r → Invariant demoEnv r)
    ∧ (∀ g r, startOfDT demoEnv
        { timestamp := 1609459200000, timezone := "UTC", offsetCache := none }
        g = .ok r → Invariant demoEnv r)
    ∧ (∀ g r, endOfDT demoEnv
        { timestamp := 1609459200000, timezone := "UTC", offsetCache := none }
        g = .ok r → Invariant demoEnv r)
    ∧ (∀ tz r, convertToTimezone demoEnv
        { timestamp := 1609459200000, timezone := "UTC", offsetCache := none }
        tz = .ok r → Invariant demoEnv r)
    ∧ (∀ tz p, cloneToTimezone demoEnv
        { timestamp := 1609459200000, timezone := "UTC", offsetCache := none }
        tz = .ok p → Invariant demoEnv p.1 ∧ Invariant demoEnv p.2)
    ∧ (∀ input pat tzArg r, parseDT demoEnv input pat tzArg = .ok r →
        Invariant demoEnv r)
    ∧ (∀ ts tzField tzArg r, hydrateDT demoEnv ts tzField tzArg = .ok r →
        Invariant demoEnv r)) := by
  exact ⟨by decide,
    c2_invariant demoEnv
      { timestamp := 1609459200000, timezone := "UTC", offsetCache := none }
      (by decide)⟩

/-! ## Claim C3: the DST disambiguation priority -/

theorem step_exact (acc : ResState) (r : CandRec) (h : r.delta = 0) :
    stepCandidate acc r = { acc with exacts := acc.exacts ++ [r] } := by
  unfold stepCandidate
  rw [if_pos h]

theorem step_pos_none (acc : ResState) (r : CandRec) (h : ¬ r.delta = 0)
    (h2 : 0 < r.delta) (hn : acc.next = none) :
    stepCandidate acc r = { acc with next := some r } := by
  unfold stepCandidate
  rw [if_neg h, if_pos h2]
  simp only [hn]

theorem step_pos_some (acc : ResState) (r n : CandRec) (h : ¬ r.delta = 0)
    (h2 : 0 < r.delta) (hn : acc.next = some n) :
    stepCandidate acc r =
      if r.delta < n.delta ∨ (r.delta = n.delta ∧ r.isDst ∧ ¬ n.isDst) then
        { acc with next := some r }
      else acc := by
  unfold stepCandidate
  rw [if_neg h, if_pos h2]
  simp only [hn]

theorem step_neg_none (acc : ResState) (r : CandRec) (h : ¬ r.delta = 0)
    (h2 : ¬ 0 < r.delta) (hp : acc.prev = none) :
    stepCandidate acc r = { acc with prev := some r } := by
  unfold stepCandidate
  rw [if_neg h, if_neg h2]
  simp only [hp]

theorem step_neg_some (acc : ResState) (r p : CandRec) (h : ¬ r.delta = 0)
    (h2 : ¬ 0 < r.delta) (hp : acc.prev = some p) :
    stepCandidate acc r =
      if p.delta < r.delta ∨ (r.delta = p.delta ∧ r.isDst ∧ ¬ p.isDst) then
        { acc with prev := some r }
      else acc := by
  unfold stepCandidate
  rw [if_neg h, if_neg h2]
  simp only [hp]

theorem choose_exact_one (rs : ResState) (fb : DateTz) (r : CandRec)
    (h : rs.exacts = [r]) : chooseCandidate rs fb = r.date := by
  unfold chooseCandidate sortDstFirst
  rw [h]

theorem choose_exact_two (rs : ResState) (fb : DateTz) (r1 r2 : CandRec)
    (h : rs.exacts = [r1, r2]) :
    chooseCandidate rs fb
      = if ¬ r1.isDst ∧ r2.isDst then r2.date else r1.date := by
  unfold chooseCandidate sortDstFirst
  rw [h]
  dsimp only
  by_cases hc : ¬ r1.isDst = true ∧ r2.isDst = true
  · simp only [if_pos hc]
  · simp only [if_neg hc]

theorem choose_next (rs : ResState) (fb : DateTz) (n : CandRec)
    (he : rs.exacts = []) (hn : rs.next = some n) :
    chooseCandidate rs fb = n.date := by
  unfold chooseCandidate sortDstFirst
  rw [he, hn]

theorem choose_prev (rs : ResState) (fb : DateTz) (p : CandRec)
    (he : rs.exacts = []) (hn : rs.next = none) (hp : rs.prev = some p) :
    chooseCandidate rs fb = p.date := by
  unfold chooseCandidate sortDstFirst
  rw [he, hn, hp]

/-- The selection among the two candidates of a daylight-observing zone,
case by case. -/
theorem chooseCandidate_two (r1 r2 : CandRec) (fb : DateTz) (rs : ResState)
    (hrs : rs = stepCandidate
      (stepCandidate { exacts := [], next := none, prev := none } r1) r2) :
    ((r1.delta = 0 ∧ ¬ r2.delta = 0) → chooseCandidate rs fb = r1.date)
    ∧ ((r2.delta = 0 ∧ ¬ r1.delta = 0) → chooseCandidate rs fb = r2.date)
    ∧ ((r1.delta = 0 ∧ r2.delta = 0 ∧ r2.isDst = true ∧ r1.isDst = false) →
        chooseCandidate rs fb = r2.date)
    ∧ ((r1.delta = 0 ∧ r2.delta = 0 ∧ ¬ (r2.isDst = true ∧ r1.isDst = false)) →
        chooseCandidate rs fb = r1.date)
    ∧ ((0 < r1.delta ∧ 0 < r2.delta) →
        chooseCandidate rs fb =
          (if r2.delta < r1.delta ∨ (r2.delta = r1.delta ∧ r2.isDst ∧ ¬ r1.isDst)
           then r2.date else r1.date))
    ∧ ((0 < r1.delta ∧ r2.delta < 0) → chooseCandidate rs fb = r1.date)
    ∧ ((r1.delta < 0 ∧ 0 < r2.delta) → chooseCandidate rs fb = r2.date)
    ∧ ((r1.delta < 0 ∧ r2.delta < 0) →
        chooseCandidate rs fb =
          (if r1.delta < r2.delta ∨ (r2.delta = r1.delta ∧ r2.isDst ∧ ¬ r1.isDst)
           then r2.date else r1.date)) := by
  refine ⟨?_, ?_, ?_, ?_, ?_, ?_, ?_, ?_⟩
  · rintro ⟨h1, h2⟩
    rw [step_exact _ r1 h1] at hrs
    rcases Int.lt_or_lt_of_ne (fun hc => h2 hc) with hs | hs
    · rw [step_neg_none _ r2 h2 (by omega) rfl] at hrs
      exact choose_exact_one rs fb r1 (by simp [hrs])
    · rw [step_pos_none _ r2 h2 hs rfl] at hrs
      exact choose_exact_one rs fb r1 (by simp [hrs])
  · rintro ⟨h2, h1⟩
    rcases Int.lt_or_lt_of_ne (fun hc => h1 hc) with hs | hs
    · rw [step_neg_none _ r1 h1 (by omega) rfl] at hrs
      rw [step_exact _ r2 h2] at hrs
      exact choose_exact_one rs fb r2 (by simp [hrs])
    · rw [step_pos_none _ r1 h1 hs rfl] at hrs
      rw [step_exact _ r2 h2] at hrs
      exact choose_exact_one rs fb r2 (by simp [hrs])
  · rintro ⟨h1, h2, hb2, hb1⟩
    rw [step_exact _ r1 h1, step_exact _ r2 h2] at hrs
    rw [choose_exact_two rs fb r1 r2 (by simp [hrs])]
    rw [if_pos (by simp [hb1, hb2])]
  · rintro ⟨h1, h2, hnb⟩
    rw [step_exact _ r1 h1, step_exact _ r2 h2] at hrs
    rw [choose_exact_two rs fb r1 r2 (by simp [hrs])]
    rw [if_neg (by
      intro hc
      exact hnb ⟨hc.2, by simpa using hc.1⟩)]
  · rintro ⟨h1, h2⟩
    rw [step_pos_none _ r1 (by omega) h1 rfl] at hrs
    rw [step_pos_some _ r2 r1 (by omega) h2 rfl] at hrs
    split at hrs
    · exact choose_next rs fb r2 (by simp [hrs]) (by simp [hrs])
          |>.trans (by rw [if_pos (by assumption)])
    · exact choose_next rs fb r1 (by simp [hrs]) (by simp [hrs])
          |>.trans (by rw [if_neg (by assumption)])
  · rintro ⟨h1, h2⟩
    rw [step_pos_none _ r1 (by omega) h1 rfl] at hrs
    rw [step_neg_none _ r2 (by omega) (by omega) rfl] at hrs
    exact choose_next rs fb r1 (by simp [hrs]) (by simp [hrs])
  · rintro ⟨h1, h2⟩
    rw [step_neg_none _ r1 (by omega) (by omega) rfl] at hrs
    rw [step_pos_none _ r2 (by omega) (by omega) rfl] at hrs
    exact choose_next rs fb r2 (by simp [hrs]) (by simp [hrs])
  · rintro ⟨h1, h2⟩
    rw [step_neg_none _ r1 (by omega) (by omega) rfl] at hrs
    rw [step_neg_some _ r2 r1 (by omega) (by omega) rfl] at hrs
    split at hrs
    · exact (choose_prev rs fb r2 (by simp [hrs]) (by simp [hrs]) (by simp [hrs])).trans
        (by rw [if_pos (by assumption)])
    · exact (choose_prev rs fb r1 (by simp [hrs]) (by simp [hrs]) (by simp [hrs])).trans
        (by rw [if_neg (by assumption)])

/-- In a zone with two distinct catalog offsets, `resolveLocal` is exactly the
selection among the standard-offset and daylight-offset candidates. -/
theorem resolveLocal_two (env : Env) (y mo da h mi s : Int) (tzS : String)
    (info : TimezoneOffset) (hcat : env.tzs tzS = some info)
    (hdiff : ¬ info.sdt = info.dst) :
    resolveLocal env y mo da h mi s tzS =
      .ok (chooseCandidate
        (stepCandidate (stepCandidate { exacts := [], next := none, prev := none }
            (mkCandidate env info tzS (dateUTC y mo da h mi s)
              (dateUTC y mo da h mi 0) info.sdt))
          (mkCandidate env info tzS (dateUTC y mo da h mi s)
            (dateUTC y mo da h mi 0) info.dst))
        { timestamp := floorToMinute (dateUTC y mo da h mi s - info.sdt * MS_PER_SECOND),
          timezone := tzS, offsetCache := none }) := by
  have hens : ensureTimezone env tzS = .ok info := by
    unfold ensureTimezone
    rw [hcat]
  unfold resolveLocal
  rw [hens]
  simp only [ok_bind, offsetsOf, if_neg hdiff, List.map_cons, List.map_nil,
    List.foldl_cons, List.foldl_nil]

set_option maxHeartbeats 1000000 in
/-- C3: when parsing local fields in a zone whose two catalog offsets differ,
the resolved instant follows the documented priority over the two candidates
`r1` (standard offset) and `r2` (daylight offset): an exact match beats the
other cases and, when both candidates are exact (ambiguous local time, the
fall-back overlap), the daylight-flagged candidate wins; with no exact match,
the smallest positive delta wins (gap), ties toward the daylight candidate;
a positive delta beats a negative one; with only negative deltas the one
closest to zero wins, ties toward the daylight candidate; the result is always
one of the two candidates. -/
theorem c3_resolution_priority (env : Env) (y mo da h mi s : Int) (tzS : String)
    (info : TimezoneOffset) (r1 r2 : CandRec)
    (hcat : env.tzs tzS = some info)
    (hdiff : ¬ info.sdt = info.dst)
    (hr1 : r1 = mkCandidate env info tzS (dateUTC y mo da h mi s)
      (dateUTC y mo da h mi 0) info.sdt)
    (hr2 : r2 = mkCandidate env info tzS (dateUTC y mo da h mi s)
      (dateUTC y mo da h mi 0) info.dst) :
    ∃ res, resolveLocal env y mo da h mi s tzS = .ok res
    ∧ ((r1.delta = 0 ∧ ¬ r2.delta = 0) → res = r1.date)
    ∧ ((r2.delta = 0 ∧ ¬ r1.delta = 0) → res = r2.date)
    ∧ ((r1.delta = 0 ∧ r2.delta = 0 ∧ r2.isDst = true ∧ r1.isDst = false) →
        res = r2.date)
    ∧ ((r1.delta = 0 ∧ r2.delta = 0 ∧ ¬ (r2.isDst = true ∧ r1.isDst = false)) →
        res = r1.date)
    ∧ ((0 < r1.delta ∧ 0 < r2.delta) →
        res = (if r2.delta < r1.delta ∨ (r2.delta = r1.delta ∧ r2.isDst ∧ ¬ r1.isDst)
               then r2.date else r1.date))
    ∧ ((0 < r1.delta ∧ r2.delta < 0) → res = r1.date)
    ∧ ((r1.delta < 0 ∧ 0 < r2.delta) → res = r2.date)
    ∧ ((r1.delta < 0 ∧ r2.delta < 0) →
        res = (if r1.delta < r2.delta ∨ (r2.delta = r1.delta ∧ r2.isDst ∧ ¬ r1.isDst)
               then r2.date else r1.date))
    ∧ (res = r1.date ∨ res = r2.date) := by
  refine ⟨_, resolveLocal_two env y mo da h mi s tzS info hcat hdiff, ?_⟩
  have hmain := chooseCandidate_two r1 r2
    { timestamp := floorToMinute (dateUTC y mo da h mi s - info.sdt * MS_PER_SECOND),
      timezone := tzS, offsetCache := none } _ (by rw [hr1, hr2])
  obtain ⟨c1, c2, c3, c4, c5, c6, c7, c8⟩ := hmain
  refine ⟨c1, c2, c3, c4, c5, c6, c7, c8, ?_⟩
  rcases lt_trichotomy r1.delta 0 with hs1 | hs1 | hs1 <;>
    rcases lt_trichotomy r2.delta 0 with hs2 | hs2 | hs2
  · rw [c8 ⟨hs1, hs2⟩]
    split
    · right; rfl
    · left; rfl
  · right
    exact c2 ⟨hs2, by omega⟩
  · right
    exact c7 ⟨hs1, hs2⟩
  · left
    exact c1 ⟨hs1, by omega⟩
  · by_cases hb : r2.isDst = true ∧ r1.isDst = false
    · right
      exact c3 ⟨hs1, hs2, hb⟩
    · left
      exact c4 ⟨hs1, hs2, hb⟩
  · left
    exact c1 ⟨hs1, by omega⟩
  · left
    exact c6 ⟨hs1, hs2⟩
  · right
    exact c2 ⟨hs2, by omega⟩
  · rw [c5 ⟨hs1, hs2⟩]
    split
    · right; rfl
    · left; rfl

/-- Witness for C3 at the 2021 America/New_York fall-back overlap. -/
theorem c3_resolution_priority_witness :
    demoEnv.tzs ("America/New_York") = some ⟨-18000, -14400⟩
    ∧ ∃ res, resolveLocal demoEnv 2021 10 7 1 30 0 ("America/New_York") = .ok res
    ∧ ((mkCandidate demoEnv ⟨-18000, -14400⟩ ("America/New_York")
          (dateUTC 2021 10 7 1 30 0) (dateUTC 2021 10 7 1 30 0) (-18000)).delta = 0
        ∧ (mkCandidate demoEnv ⟨-18000, -14400⟩ ("America/New_York")
          (dateUTC 2021 10 7 1 30 0) (dateUTC 2021 10 7 1 30 0) (-14400)).delta = 0
        ∧ (mkCandidate demoEnv ⟨-18000, -14400⟩ ("America/New_York")
          (dateUTC 2021 10 7 1 30 0) (dateUTC 2021 10 7 1 30 0) (-14400)).isDst = true
        ∧ (mkCandidate demoEnv ⟨-18000, -14400⟩ ("America/New_York")
          (dateUTC 2021 10 7 1 30 0) (dateUTC 2021 10 7 1 30 0) (-18000)).isDst = false →
        res = (mkCandidate demoEnv ⟨-18000, -14400⟩ ("America/New_York")
          (dateUTC 2021 10 7 1 30 0) (dateUTC 2021 10 7 1 30 0) (-14400)).date) := by
  refine ⟨by decide, ?_⟩
  obtain ⟨res, hok, _, _, c3, _⟩ := c3_resolution_priority demoEnv 2021 10 7 1 30 0
    ("America/New_York") ⟨-18000, -14400⟩ _ _ (by decide) (by decide) rfl rfl
  exact ⟨res, hok, fun hx => c3 ⟨hx.1, hx.2.1, hx.2.2.1, hx.2.2.2⟩⟩

/-! ## Scanning a rendered default-format string -/

theorem natToDigits_length_le (n len : Nat) (h : n < 10 ^ len) (h1 : 1 ≤ len) :
    (natToDigits n).length ≤ len := by
  induction len generalizing n with
  | zero => omega
  | succ len ih =>
    rw [natToDigits_eq]
    split
    · simp
    · rename_i hge
      simp only [List.length_append, List.length_cons, List.length_nil]
      have hlen1 : 1 ≤ len := by
        rcases Nat.eq_zero_or_pos len with hz | hp
        · subst hz
          simp at h
          omega
        · omega
      have hp : 10 ^ (len + 1) = 10 ^ len * 10 := by ring
      have hd : n / 10 < 10 ^ len := by
        rw [Nat.div_lt_iff_lt_mul (by omega)]
        omega
      have := ih (n / 10) hd hlen1
      omega

theorem padI_spec (v : Int) (len : Nat) (h0 : 0 ≤ v) (h1 : v.toNat < 10 ^ len)
    (hl : 1 ≤ len) :
    (padI v len).length = len ∧ allDigits (padI v len) = true
      ∧ jsNumber (padI v len) = some v := by
  unfold padI padStart intToStr
  rw [if_neg (by omega)]
  have hle := natToDigits_length_le v.toNat len h1 hl
  have hall := natToDigits_all_digits v.toNat
  have hall2 := allDigits_replicate_zero_append (len - (natToDigits v.toNat).length)
    (natToDigits v.toNat) hall
  refine ⟨?_, hall2, ?_⟩
  · simp only [List.length_append, List.length_replicate]
    omega
  · have hne : (List.replicate (len - (natToDigits v.toNat).length) '0'
        ++ natToDigits v.toNat) ≠ [] := by
      intro hc
      rcases List.append_eq_nil.mp hc with ⟨_, h2⟩
      exact natToDigits_ne_nil v.toNat h2
    unfold jsNumber
    rw [trimStr_of_digits _ hall2]
    rw [if_neg (by simpa [List.isEmpty_iff] using hne), if_pos hall2]
    rw [digitsToNat_replicate_zero, natToDigits_val, Int.toNat_of_nonneg h0]

theorem tokenize_default :
    tokenizePattern defaultFormat
      = [.token .YYYY, .literal ("-".data), .token .MM, .literal ("-".data),
         .token .DD, .literal (" ".data), .token .HH, .literal (":".data),
         .token .mm, .literal (":".data), .token .ss] := by
  decide

theorem take_len_append (a b : Str) : (a ++ b).take a.length = a := by simp

theorem drop_len_append (a b : Str) : (a ++ b).drop a.length = b := by simp

theorem readNumberE_pad (len : Nat) (v : Int) (rest : Str)
    (hlen : (padI v len).length = len) (hjs : jsNumber (padI v len) = some v) :
    readNumberE len (padI v len ++ rest) = .ok (v, rest) := by
  have htg : ∀ l : Str, l.length = len → (l ++ rest).take len = l := by
    intro l hl
    rw [← hl]
    exact take_len_append _ _
  have hdg : ∀ l : Str, l.length = len → (l ++ rest).drop len = rest := by
    intro l hl
    rw [← hl]
    exact drop_len_append _ _
  have ht := htg (padI v len) hlen
  have hd := hdg (padI v len) hlen
  unfold readNumberE readFixedE
  simp only [ht, hd]
  rw [if_neg (by rw [hlen]; exact fun hc => hc rfl)]
  rw [ok_bind, hjs]

theorem scanSegs_lit (lit : Str) (segs : List PatternSegment) (rem : Str)
    (st : ParseState) :
    scanSegs (.literal lit :: segs) (lit ++ rem) st = scanSegs segs rem st := by
  simp only [scanSegs, take_len_append, drop_len_append, if_pos]

theorem scanSegs_YYYY (segs : List PatternSegment) (rem rest : Str) (st : ParseState)
    (v : Int) (h : readNumberE 4 rem = .ok (v, rest)) :
    scanSegs (.token .YYYY :: segs) rem st
      = scanSegs segs rest { st with year := some v } := by
  simp only [scanSegs, h, ok_bind]

theorem scanSegs_MM (segs : List PatternSegment) (rem rest : Str) (st : ParseState)
    (v : Int) (h : readNumberE 2 rem = .ok (v, rest)) :
    scanSegs (.token .MM :: segs) rem st
      = scanSegs segs rest { st with month := some v } := by
  simp only [scanSegs, h, ok_bind]

theorem scanSegs_DD (segs : List PatternSegment) (rem rest : Str) (st : ParseState)
    (v : Int) (h : readNumberE 2 rem = .ok (v, rest)) :
    scanSegs (.token .DD :: segs) rem st
      = scanSegs segs rest { st with day := some v } := by
  simp only [scanSegs, h, ok_bind]

theorem scanSegs_HH (segs : List PatternSegment) (rem rest : Str) (st : ParseState)
    (v : Int) (h : readNumberE 2 rem = .ok (v, rest)) :
    scanSegs (.token .HH :: segs) rem st
      = scanSegs segs rest { st with hour24 := some v } := by
  simp only [scanSegs, h, ok_bind]

theorem scanSegs_mm_tok (segs : List PatternSegment) (rem rest : Str) (st : ParseState)
    (v : Int) (h : readNumberE 2 rem = .ok (v, rest)) :
    scanSegs (.token .mm :: segs) rem st
      = scanSegs segs rest { st with minute := some v } := by
  simp only [scanSegs, h, ok_bind]

theorem scanSegs_ss (segs : List PatternSegment) (rem rest : Str) (st : ParseState)
    (v : Int) (h : readNumberE 2 rem = .ok (v, rest)) :
    scanSegs (.token .ss :: segs) rem st
      = scanSegs segs rest { st with second := some v } := by
  simp only [scanSegs, h, ok_bind]

/-- Scanning the default pattern over a string rendered from in-range
fields recovers exactly those fields and consumes the whole input. -/
theorem scan_default (y mo da h mi s : Int)
    (hy : 0 ≤ y) (hy2 : y ≤ 9999) (hmo : 0 ≤ mo) (hmo2 : mo ≤ 99)
    (hda : 0 ≤ da) (hda2 : da ≤ 99) (hh : 0 ≤ h) (hh2 : h ≤ 99)
    (hmi : 0 ≤ mi) (hmi2 : mi ≤ 99) (hs : 0 ≤ s) (hs2 : s ≤ 99) :
    scanSegs (tokenizePattern defaultFormat)
      (padI y 4 ++ ("-".data ++ (padI mo 2 ++ ("-".data ++ (padI da 2 ++ (" ".data
        ++ (padI h 2 ++ (":".data ++ (padI mi 2 ++ (":".data ++ padI s 2))))))))))
      initState
      = .ok ({ year := some y, month := some mo, day := some da, hour24 := some h,
               minute := some mi, second := some s }, []) := by
  obtain ⟨hl1, _, hj1⟩ := padI_spec y 4 hy (by omega) (by omega)
  obtain ⟨hl2, _, hj2⟩ := padI_spec mo 2 hmo (by omega) (by omega)
  obtain ⟨hl3, _, hj3⟩ := padI_spec da 2 hda (by omega) (by omega)
  obtain ⟨hl4, _, hj4⟩ := padI_spec h 2 hh (by omega) (by omega)
  obtain ⟨hl5, _, hj5⟩ := padI_spec mi 2 hmi (by omega) (by omega)
  obtain ⟨hl6, _, hj6⟩ := padI_spec s 2 hs (by omega) (by omega)
  rw [tokenize_default]
  rw [scanSegs_YYYY _ _ _ _ y (readNumberE_pad 4 y _ hl1 hj1)]
  rw [scanSegs_lit]
  rw [scanSegs_MM _ _ _ _ mo (readNumberE_pad 2 mo _ hl2 hj2)]
  rw [scanSegs_lit]
  rw [scanSegs_DD _ _ _ _ da (readNumberE_pad 2 da _ hl3 hj3)]
  rw [scanSegs_lit]
  rw [scanSegs_HH _ _ _ _ h (readNumberE_pad 2 h _ hl4 hj4)]
  rw [scanSegs_lit]
  rw [scanSegs_mm_tok _ _ _ _ mi (readNumberE_pad 2 mi _ hl5 hj5)]
  rw [scanSegs_lit]
  rw [show padI s 2 = padI s 2 ++ [] from (List.append_nil _).symm]
  rw [scanSegs_ss _ _ _ _ s (readNumberE_pad 2 s _ hl6 hj6)]
  rfl

/-- Parsing a rendered default-format string reduces to resolving the
scanned fields (the scanned month is one-based). -/
theorem parseDT_default (env : Env) (tzS : String) (y mo da h mi s : Int)
    (hy : 0 ≤ y) (hy2 : y ≤ 9999) (hmo : 0 ≤ mo) (hmo2 : mo ≤ 99)
    (hda : 0 ≤ da) (hda2 : da ≤ 99) (hh : 0 ≤ h) (hh2 : h ≤ 99)
    (hmi : 0 ≤ mi) (hmi2 : mi ≤ 99) (hs : 0 ≤ s) (hs2 : s ≤ 99) :
    parseDT env
      (padI y 4 ++ ("-".data ++ (padI mo 2 ++ ("-".data ++ (padI da 2 ++ (" ".data
        ++ (padI h 2 ++ (":".data ++ (padI mi 2 ++ (":".data ++ padI s 2))))))))))
      (some defaultFormat) (some tzS)
      = resolveLocal env y (mo - 1) da h mi s tzS := by
  unfold parseDT
  simp only [ite_self]
  rw [if_neg (by rw [tokenize_default]; decide)]
  rw [scan_default y mo da h mi s hy hy2 hmo hmo2 hda hda2 hh hh2 hmi hmi2 hs hs2]
  rw [ok_bind]
  unfold finishParse
  simp only []
  rfl

/-- `setFromLocalParts` on in-range fields is the reparse of the formatted
fields, i.e. a resolution of the clamped local fields in the value's zone. -/
theorem setFromLocalParts_eq (env : Env) (d : DateTz) (parts : LocalDateTime)
    (safeDay : Int)
    (hclamp : clampDay parts.year parts.month parts.day = some safeDay)
    (hy : 0 ≤ parts.year) (hy2 : parts.year ≤ 9999)
    (hmo : 0 ≤ parts.month) (hmo2 : parts.month ≤ 98)
    (hda : 0 ≤ safeDay) (hda2 : safeDay ≤ 99)
    (hh : 0 ≤ parts.hour) (hh2 : parts.hour ≤ 99)
    (hmi : 0 ≤ parts.minute) (hmi2 : parts.minute ≤ 99)
    (hs : 0 ≤ parts.second) (hs2 : parts.second ≤ 99) :
    setFromLocalParts env d parts
      = (resolveLocal env parts.year parts.month safeDay parts.hour parts.minute
          parts.second d.timezone).map
          (fun r => { timestamp := r.timestamp, timezone := r.timezone,
                      offsetCache := none }) := by
  unfold setFromLocalParts
  rw [hclamp]
  simp only [List.append_assoc]
  rw [parseDT_default env d.timezone parts.year (parts.month + 1) safeDay parts.hour
    parts.minute parts.second hy hy2 (by omega) (by omega) hda hda2 hh hh2 hmi hmi2
    hs hs2]
  rw [show parts.month + 1 - 1 = parts.month from by ring]
  cases hres : resolveLocal env parts.year parts.month safeDay parts.hour parts.minute
      parts.second d.timezone with
  | error e => rw [error_bind]; rfl
  | ok r => rw [ok_bind]; rfl

/-- In a fixed-offset zone the resolution is always the single candidate. -/
theorem resolveLocal_single (env : Env) (y mo da h mi s : Int) (tzS : String)
    (info : TimezoneOffset) (hcat : env.tzs tzS = some info)
    (heq : info.sdt = info.dst) :
    resolveLocal env y mo da h mi s tzS
      = .ok (mkCandidate env info tzS (dateUTC y mo da h mi s)
          (dateUTC y mo da h mi 0) info.sdt).date := by
  have hens : ensureTimezone env tzS = .ok info := by
    unfold ensureTimezone
    rw [hcat]
  unfold resolveLocal
  rw [hens]
  simp only [ok_bind, offsetsOf, if_pos heq, List.map_cons, List.map_nil,
    List.foldl_cons, List.foldl_nil]
  set r := mkCandidate env info tzS (dateUTC y mo da h mi s)
    (dateUTC y mo da h mi 0) info.sdt with hr
  set fb : DateTz :=
    { timestamp := floorToMinute (dateUTC y mo da h mi s - info.sdt * MS_PER_SECOND),
      timezone := tzS, offsetCache := none } with hfb
  rcases lt_trichotomy r.delta 0 with hs1 | hs1 | hs1
  · rw [step_neg_none _ r (by omega) (by omega) rfl]
    rw [choose_prev _ fb r (by simp) (by simp) (by simp)]
  · rw [step_exact _ r hs1]
    rw [choose_exact_one _ fb r (by simp)]
  · rw [step_pos_none _ r (by omega) hs1 rfl]
    rw [choose_next _ fb r (by simp) (by simp)]

/-- When some candidate matches the target fields exactly, the resolution
returns the instant of an exact candidate. -/
theorem resolveLocal_exact_mem (env : Env) (y mo da h mi s : Int) (tzS : String)
    (info : TimezoneOffset) (hcat : env.tzs tzS = some info)
    (hsome : ∃ off ∈ offsetsOf info,
      (mkCandidate env info tzS (dateUTC y mo da h mi s)
        (dateUTC y mo da h mi 0) off).delta = 0) :
    ∃ off ∈ offsetsOf info,
      (mkCandidate env info tzS (dateUTC y mo da h mi s)
        (dateUTC y mo da h mi 0) off).delta = 0
      ∧ resolveLocal env y mo da h mi s tzS
          = .ok (mkCandidate env info tzS (dateUTC y mo da h mi s)
              (dateUTC y mo da h mi 0) off).date := by
  by_cases heq : info.sdt = info.dst
  · obtain ⟨off, hmem, hdel⟩ := hsome
    rw [offsetsOf, if_pos heq] at hmem
    simp only [List.mem_singleton] at hmem
    subst hmem
    refine ⟨info.sdt, ?_, hdel, resolveLocal_single env y mo da h mi s tzS info hcat heq⟩
    rw [offsetsOf, if_pos heq]
    simp
  · have hrw := resolveLocal_two env y mo da h mi s tzS info hcat heq
    set r1 := mkCandidate env info tzS (dateUTC y mo da h mi s)
      (dateUTC y mo da h mi 0) info.sdt with hr1
    set r2 := mkCandidate env info tzS (dateUTC y mo da h mi s)
      (dateUTC y mo da h mi 0) info.dst with hr2
    have hcc := chooseCandidate_two r1 r2
      { timestamp := floorToMinute (dateUTC y mo da h mi s - info.sdt * MS_PER_SECOND),
        timezone := tzS, offsetCache := none } _ rfl
    obtain ⟨c1, c2, c3, c4, _, _, _, _⟩ := hcc
    have hmem1 : info.sdt ∈ offsetsOf info := by
      rw [offsetsOf, if_neg heq]
      simp
    have hmem2 : info.dst ∈ offsetsOf info := by
      rw [offsetsOf, if_neg heq]
      simp
    obtain ⟨off, hmem, hdel⟩ := hsome
    rw [offsetsOf, if_neg heq] at hmem
    simp only [List.mem_cons, List.mem_singleton, List.not_mem_nil, or_false] at hmem
    by_cases h1 : r1.delta = 0
    · by_cases h2 : r2.delta = 0
      · by_cases hb : r2.isDst = true ∧ r1.isDst = false
        · exact ⟨info.dst, hmem2, h2, by rw [hrw, c3 ⟨h1, h2, hb.1, hb.2⟩]⟩
        · exact ⟨info.sdt, hmem1, h1, by rw [hrw, c4 ⟨h1, h2, hb⟩]⟩
      · exact ⟨info.sdt, hmem1, h1, by rw [hrw, c1 ⟨h1, h2⟩]⟩
    · have h2 : r2.delta = 0 := by
        rcases hmem with hm | hm <;> subst hm
        · exact absurd hdel h1
        · exact hdel
      exact ⟨info.dst, hmem2, h2, by rw [hrw, c2 ⟨h2, h1⟩]⟩

/-- The local fields of a cache-free value in a catalog zone. -/
theorem getLocalParts_none (env : Env) (tzS : String) (ts : Int)
    (info : TimezoneOffset) (hcat : env.tzs tzS = some info) :
    getLocalParts env { timestamp := ts, timezone := tzS, offsetCache := none } true
      = .ok (msToLocal (ts
          + (computeOffsetInfoWith env info tzS ts).offsetSeconds * MS_PER_SECOND)) := by
  unfold getLocalParts resolveOffsetSeconds getOffsetInfoVal computeOffsetInfo
    ensureTimezone
  rw [hcat]
  rfl

/-! ## Claim C5: day clamping -/

theorem daysInMonthE_bounds (y m dm : Int) (h : daysInMonthE y m = some dm) :
    0 ≤ m ∧ m ≤ 11 ∧ 28 ≤ dm ∧ dm ≤ 31 := by
  unfold daysInMonthE at h
  split at h
  · rename_i h1
    subst h1
    split at h <;> (injection h with he; omega)
  · split at h
    · rename_i h1 h2
      injection h with he
      refine ⟨h2.1, h2.2, ?_, ?_⟩ <;>
        (obtain ⟨hm1, hm2⟩ := h2
         interval_cases m <;> (simp [daysPerMonth] at he; omega))
    · exact absurd h (by simp)

set_option maxHeartbeats 1000000 in
/-- C5: on a value whose local month has fewer than 31 days, `set(31, 'day')`
clamps the day to the month length before reconstruction, leaving month and
year unchanged; when the clamped wall-clock time is attainable in the zone,
the result's local fields are the last valid day of that same month; and after
every month or year shift the day is clamped to the (new) month length before
the instant is reconstructed. -/
theorem c5_day_clamp (env : Env) (d : DateTz) (parts : LocalDateTime) (dm : Int)
    (info : TimezoneOffset)
    (hparts : getLocalParts env d true = .ok parts)
    (hcat : env.tzs d.timezone = some info)
    (hdm : daysInMonthE parts.year parts.month = some dm)
    (h31 : dm < 31)
    (hy : 0 ≤ parts.year) (hy2 : parts.year ≤ 9999)
    (hh : 0 ≤ parts.hour) (hh2 : parts.hour ≤ 23)
    (hmi : 0 ≤ parts.minute) (hmi2 : parts.minute ≤ 59)
    (hex : ∀ off ∈ offsetsOf info,
      (mkCandidate env info d.timezone
        (dateUTC parts.year parts.month dm parts.hour parts.minute 0)
        (dateUTC parts.year parts.month dm parts.hour parts.minute 0) off).delta = 0 →
      msToLocal ((mkCandidate env info d.timezone
          (dateUTC parts.year parts.month dm parts.hour parts.minute 0)
          (dateUTC parts.year parts.month dm parts.hour parts.minute 0) off).date.timestamp
        + (computeOffsetInfoWith env info d.timezone
            (mkCandidate env info d.timezone
              (dateUTC parts.year parts.month dm parts.hour parts.minute 0)
              (dateUTC parts.year parts.month dm parts.hour parts.minute 0)
              off).date.timestamp).offsetSeconds * MS_PER_SECOND)
        = { year := parts.year, month := parts.month, day := dm,
            hour := parts.hour, minute := parts.minute, second := 0 })
    (hsome : ∃ off ∈ offsetsOf info,
      (mkCandidate env info d.timezone
        (dateUTC parts.year parts.month dm parts.hour parts.minute 0)
        (dateUTC parts.year parts.month dm parts.hour parts.minute 0) off).delta = 0) :
    setDT env d 31 .day
      = setFromLocalParts env d { parts with day := dm, second := 0 }
    ∧ (∃ r, setDT env d 31 .day = .ok r ∧ r.timezone = d.timezone
        ∧ getLocalParts env r true
            = .ok { year := parts.year, month := parts.month, day := dm,
                    hour := parts.hour, minute := parts.minute, second := 0 })
    ∧ (∀ (isYear : Bool) (value dd : Int), ¬ value = 0 →
        clampDay (shiftCalendarFields parts isYear value).year
          (shiftCalendarFields parts isYear value).month
          (shiftCalendarFields parts isYear value).day = some dd →
        shiftCalendarDT env d isYear value
          = setFromLocalParts env d
              { shiftCalendarFields parts isYear value with day := dd }
        ∧ ∀ dm', daysInMonthE (shiftCalendarFields parts isYear value).year
            (shiftCalendarFields parts isYear value).month = some dm' → dd ≤ dm') := by
  obtain ⟨hm0, hm11, hdm28, hdm31⟩ := daysInMonthE_bounds _ _ _ hdm
  have hcl31 : clampDay parts.year parts.month (31 : Int) = some dm := by
    unfold clampDay
    rw [hdm]
    show some (min (31 : Int) dm) = some dm
    rw [show min (31 : Int) dm = dm from by omega]
  have hstep1 : setDT env d 31 .day
      = setFromLocalParts env d { parts with day := dm, second := 0 } := by
    unfold setDT
    rw [hparts]
    simp only [ok_bind, setFields]
    rw [hcl31]
    dsimp only
    have e1 : (0 : Int) ⊔ (23 : Int) ⊓ parts.hour = parts.hour := by omega
    have e2 : (0 : Int) ⊔ (59 : Int) ⊓ parts.minute = parts.minute := by omega
    rw [e1, e2]
  refine ⟨hstep1, ?_, ?_⟩
  · have hcldm : clampDay parts.year parts.month dm = some dm := by
      unfold clampDay
      rw [hdm]
      show some (min dm dm) = some dm
      rw [show min dm dm = dm from by omega]
    have heq2 : setFromLocalParts env d { parts with day := dm, second := 0 }
        = (resolveLocal env parts.year parts.month dm parts.hour parts.minute 0
            d.timezone).map
            (fun r => { timestamp := r.timestamp, timezone := r.timezone,
                        offsetCache := none }) :=
      setFromLocalParts_eq env d { parts with day := dm, second := 0 } dm
        hcldm hy hy2 (by show 0 ≤ parts.month; omega) (by show parts.month ≤ 98; omega)
        (by omega) (by omega) (by show 0 ≤ parts.hour; omega)
        (by show parts.hour ≤ 99; omega) (by show 0 ≤ parts.minute; omega)
        (by show parts.minute ≤ 99; omega) (by show (0:Int) ≤ 0; omega)
        (by show (0:Int) ≤ 99; omega)
    obtain ⟨off, hmem, hdel, hres⟩ := resolveLocal_exact_mem env parts.year parts.month
      dm parts.hour parts.minute 0 d.timezone info hcat hsome
    set ts0 := (mkCandidate env info d.timezone
        (dateUTC parts.year parts.month dm parts.hour parts.minute 0)
        (dateUTC parts.year parts.month dm parts.hour parts.minute 0)
        off).date.timestamp with hts0
    refine ⟨⟨ts0, d.timezone, none⟩, ?_, rfl, ?_⟩
    · rw [hstep1, heq2, hres]
      rfl
    · have hfields := hex off hmem hdel
      rw [getLocalParts_none env d.timezone ts0 info hcat]
      rw [hfields]
  · intro isYear value dd hv hcl
    constructor
    · unfold shiftCalendarDT
      rw [if_neg hv, hparts]
      dsimp only
      rw [hcl]
    · intro dm' hdm'
      unfold clampDay at hcl
      rw [hdm'] at hcl
      have hcl2 : some (min (shiftCalendarFields parts isYear value).day dm')
          = some dd := hcl
      injection hcl2 with he
      omega

/-- Witness for C5 at 2021-04-15 10:30 UTC: April has 30 days, and
`set(31, 'day')` lands on April 30. -/
theorem c5_day_clamp_witness :
    setDT demoEnv ⟨1618482600000, "UTC", none⟩ 31 .day
      = setFromLocalParts demoEnv ⟨1618482600000, "UTC", none⟩
          { year := 2021, month := 3, day := 30, hour := 10, minute := 30, second := 0 }
    ∧ (∃ r, setDT demoEnv ⟨1618482600000, "UTC", none⟩ 31 .day = .ok r
        ∧ r.timezone = "UTC"
        ∧ getLocalParts demoEnv r true
            = .ok { year := 2021, month := 3, day := 30, hour := 10, minute := 30,
                    second := 0 })
    ∧ (∀ (isYear : Bool) (value dd : Int), ¬ value = 0 →
        clampDay (shiftCalendarFields ⟨2021, 3, 15, 10, 30, 0⟩ isYear value).year
          (shiftCalendarFields ⟨2021, 3, 15, 10, 30, 0⟩ isYear value).month
          (shiftCalendarFields ⟨2021, 3, 15, 10, 30, 0⟩ isYear value).day = some dd →
        shiftCalendarDT demoEnv ⟨1618482600000, "UTC", none⟩ isYear value
          = setFromLocalParts demoEnv ⟨1618482600000, "UTC", none⟩
              { shiftCalendarFields ⟨2021, 3, 15, 10, 30, 0⟩ isYear value with day := dd }
        ∧ ∀ dm', daysInMonthE (shiftCalendarFields ⟨2021, 3, 15, 10, 30, 0⟩ isYear value).year
            (shiftCalendarFields ⟨2021, 3, 15, 10, 30, 0⟩ isYear value).month = some dm' →
            dd ≤ dm') :=
  c5_day_clamp demoEnv ⟨1618482600000, "UTC", none⟩ ⟨2021, 3, 15, 10, 30, 0⟩ 30
    ⟨0, 0⟩ (by decide) (by decide) (by decide) (by decide) (by decide) (by decide)
    (by decide) (by decide) (by decide) (by decide) (by decide) (by decide)

/-! ## Claim C9: insensitivity to the seconds digits -/

theorem dateUTC_seconds (y mo da h mi s : Int) :
    dateUTC y mo da h mi s = dateUTC y mo da h mi 0 + s * MS_PER_SECOND := by
  unfold dateUTC MS_PER_SECOND MS_PER_DAY MS_PER_HOUR MS_PER_MINUTE
  by_cases hc : 0 ≤ y ∧ y ≤ 99
  · simp only [if_pos hc]
    omega
  · simp only [if_neg hc]
    omega

theorem dateUTC_zero_mod (y mo da h mi : Int) :
    dateUTC y mo da h mi 0 % MS_PER_MINUTE = 0 := by
  unfold dateUTC MS_PER_SECOND MS_PER_DAY MS_PER_HOUR MS_PER_MINUTE
  by_cases hc : 0 ≤ y ∧ y ≤ 99
  · simp only [if_pos hc]
    omega
  · simp only [if_neg hc]
    omega

theorem floorToMinute_add_small (a b : Int) (ha : a % MS_PER_MINUTE = 0)
    (hb : 0 ≤ b) (hb2 : b < MS_PER_MINUTE) : floorToMinute (a + b) = a := by
  unfold floorToMinute MS_PER_MINUTE at *
  omega

theorem mkCandidate_base_congr (env : Env) (info : TimezoneOffset) (tzS : String)
    (b1 b2 t off : Int)
    (h : floorToMinute (b1 - off * MS_PER_SECOND)
      = floorToMinute (b2 - off * MS_PER_SECOND)) :
    mkCandidate env info tzS b1 t off = mkCandidate env info tzS b2 t off := by
  unfold mkCandidate
  rw [h]

/-- Changing only the (in-range) seconds field does not change the resolved
instant when both catalog offsets are whole minutes. -/
theorem resolveLocal_seconds (env : Env) (y mo da h mi s1 s2 : Int) (tzS : String)
    (info : TimezoneOffset) (hcat : env.tzs tzS = some info)
    (hm1 : info.sdt % 60 = 0) (hm2 : info.dst % 60 = 0)
    (hs1 : 0 ≤ s1) (hs12 : s1 ≤ 59) (hs2 : 0 ≤ s2) (hs22 : s2 ≤ 59) :
    resolveLocal env y mo da h mi s1 tzS = resolveLocal env y mo da h mi s2 tzS := by
  have hens : ensureTimezone env tzS = .ok info := by
    unfold ensureTimezone
    rw [hcat]
  have hflo : ∀ off s : Int, off % 60 = 0 → 0 ≤ s → s ≤ 59 →
      floorToMinute (dateUTC y mo da h mi s - off * MS_PER_SECOND)
        = dateUTC y mo da h mi 0 - off * MS_PER_SECOND := by
    intro off s hoff hs hs2
    have h0 := dateUTC_zero_mod y mo da h mi
    rw [dateUTC_seconds y mo da h mi s]
    have ha : (dateUTC y mo da h mi 0 - off * MS_PER_SECOND) % MS_PER_MINUTE = 0 := by
      unfold MS_PER_MINUTE MS_PER_SECOND at *
      omega
    rw [show dateUTC y mo da h mi 0 + s * MS_PER_SECOND - off * MS_PER_SECOND
        = dateUTC y mo da h mi 0 - off * MS_PER_SECOND + s * MS_PER_SECOND from by ring]
    exact floorToMinute_add_small _ _ ha (by unfold MS_PER_SECOND; omega)
      (by unfold MS_PER_SECOND MS_PER_MINUTE; omega)
  have hoffm : ∀ off ∈ offsetsOf info, off % 60 = 0 := by
    intro off hmem
    unfold offsetsOf at hmem
    split at hmem <;>
      simp only [List.mem_cons, List.mem_singleton, List.not_mem_nil, or_false]
        at hmem
    · rw [hmem]
      exact hm1
    · rcases hmem with hm | hm <;> rw [hm]
      · exact hm1
      · exact hm2
  have hmap : (offsetsOf info).map
        (mkCandidate env info tzS (dateUTC y mo da h mi s1) (dateUTC y mo da h mi 0))
      = (offsetsOf info).map
        (mkCandidate env info tzS (dateUTC y mo da h mi s2) (dateUTC y mo da h mi 0)) := by
    apply List.map_congr_left
    intro off hmem
    apply mkCandidate_base_congr
    rw [hflo off s1 (hoffm off hmem) hs1 hs12, hflo off s2 (hoffm off hmem) hs2 hs22]
  have hfb : floorToMinute (dateUTC y mo da h mi s1 - info.sdt * MS_PER_SECOND)
      = floorToMinute (dateUTC y mo da h mi s2 - info.sdt * MS_PER_SECOND) := by
    rw [hflo info.sdt s1 hm1 hs1 hs12, hflo info.sdt s2 hm1 hs2 hs22]
  unfold resolveLocal
  rw [hens]
  simp only [ok_bind]
  rw [hmap, hfb]

/-- Counterexample to C9 as stated: two inputs that differ only in the two
seconds digits, in a zone whose offsets are multiples of 60 seconds, parse to
different timestamps, because a seconds chunk of 99 carries into the next
minute before the truncation. -/
theorem c9_counterexample :
    parseDT demoEnv ("2021-04-15 10:30:00".data) (some defaultFormat) (some "UTC")
      = .ok ⟨1618482600000, "UTC", none⟩
    ∧ parseDT demoEnv ("2021-04-15 10:30:99".data) (some defaultFormat) (some "UTC")
      = .ok ⟨1618482660000, "UTC", none⟩
    ∧ (1618482600000 : Int) ≠ 1618482660000 := by
  refine ⟨by decide, by decide, by decide⟩

/-- The resolution result carries the requested timezone. -/
theorem resolveLocal_seconds_ok (env : Env) (y mo da h mi s1 s2 : Int) (tzS : String)
    (r1 r2 : DateTz) (info : TimezoneOffset)
    (h1 : resolveLocal env y mo da h mi s1 tzS = .ok r1)
    (h2 : resolveLocal env y mo da h mi s2 tzS = .ok r2)
    (hcat : env.tzs r1.timezone = some info)
    (hm1 : info.sdt % 60 = 0) (hm2 : info.dst % 60 = 0)
    (hs1 : 0 ≤ s1) (hs12 : s1 ≤ 59) (hs2 : 0 ≤ s2) (hs22 : s2 ≤ 59) :
    r1 = r2 := by
  have htz : r1.timezone = tzS :=
    (resolveLocal_inv env y mo da h mi s1 tzS r1 h1).2.1
  rw [htz] at hcat
  rw [resolveLocal_seconds env y mo da h mi s1 s2 tzS info hcat hm1 hm2
    hs1 hs12 hs2 hs22] at h1
  rw [h2] at h1
  injection h1 with he
  exact he.symm

/-- Field reconciliation is insensitive to the scanned seconds value, beyond
the seconds hypotheses of the resolution. -/
theorem finishParse_seconds (env : Env) (st : ParseState) (tzArg : Option String)
    (s1 s2 : Int) (r1 r2 : DateTz) (info : TimezoneOffset)
    (hsec : st.second = some s1)
    (h1 : finishParse env st [] tzArg = .ok r1)
    (h2 : finishParse env { st with second := some s2 } [] tzArg = .ok r2)
    (hcat : env.tzs r1.timezone = some info)
    (hm1 : info.sdt % 60 = 0) (hm2 : info.dst % 60 = 0)
    (hs1 : 0 ≤ s1) (hs12 : s1 ≤ 59) (hs2 : 0 ≤ s2) (hs22 : s2 ≤ 59) :
    r1 = r2 := by
  unfold finishParse at h1 h2
  have hemp : (([] : Str).isEmpty = true) := rfl
  rw [if_pos hemp] at h1 h2
  simp only [hsec] at h1
  dsimp only at h1 h2
  cases hh24 : st.hour24 with
  | some h24 =>
      simp only [hh24, pure_bind] at h1 h2
      exact resolveLocal_seconds_ok env _ _ _ _ _ s1 s2 _ r1 r2 info h1 h2 hcat
        hm1 hm2 hs1 hs12 hs2 hs22
  | none =>
      cases hh12 : st.hour12 with
      | none =>
          simp only [hh24, hh12, pure_bind] at h1 h2
          exact resolveLocal_seconds_ok env _ _ _ _ _ s1 s2 _ r1 r2 info h1 h2 hcat
            hm1 hm2 hs1 hs12 hs2 hs22
      | some h12 =>
          cases hap : st.ampm with
          | none =>
              simp only [hh24, hh12, hap, error_bind] at h1
              exact absurd h1 (by simp)
          | some ap =>
              simp only [hh24, hh12, hap, pure_bind] at h1 h2
              exact resolveLocal_seconds_ok env _ _ _ _ _ s1 s2 _ r1 r2 info h1 h2
                hcat hm1 hm2 hs1 hs12 hs2 hs22

set_option maxHeartbeats 400000 in
/-- C9 (amended): for every pattern containing the `ss` token, every timezone
argument, and every two input strings that both parse successfully and that
the scan reads identically except for the two seconds digits (same remainder,
same fields apart from the parsed seconds value — the formal content of
"differ only in the two seconds digits"), the parses return identical
timestamp and timezone, provided both catalog offsets of the resolved zone
are whole multiples of 60 seconds and both seconds values are valid (at most
59): the parsed seconds are discarded by the minute truncation. -/
theorem c9_seconds_insensitive (env : Env) (format in1 in2 rem : Str)
    (tzArg : Option String) (st1 : ParseState) (s1 s2 : Int) (r1 r2 : DateTz)
    (info : TimezoneOffset)
    (hss : hasTok (tokenizePattern format) .ss = true)
    (hscan1 : scanSegs (tokenizePattern format) in1 initState = .ok (st1, rem))
    (hscan2 : scanSegs (tokenizePattern format) in2 initState
      = .ok ({ st1 with second := some s2 }, rem))
    (hsec : st1.second = some s1)
    (h1 : parseDT env in1 (some format) tzArg = .ok r1)
    (h2 : parseDT env in2 (some format) tzArg = .ok r2)
    (hcat : env.tzs r1.timezone = some info)
    (hm1 : info.sdt % 60 = 0) (hm2 : info.dst % 60 = 0)
    (hs1 : 0 ≤ s1) (hs12 : s1 ≤ 59) (hs2 : 0 ≤ s2) (hs22 : s2 ≤ 59) :
    r1.timestamp = r2.timestamp ∧ r1.timezone = r2.timezone := by
  have hne : format ≠ [] := by
    intro hc
    subst hc
    exact absurd hss (by decide)
  have hlen : 0 < format.length := by
    cases format with
    | nil => exact absurd rfl hne
    | cons c t => simp
  unfold parseDT at h1 h2
  dsimp only at h1 h2
  rw [if_pos hlen] at h1 h2
  split at h1
  · exact absurd h1 (by simp)
  · rename_i hcond
    rw [if_neg hcond] at h2
    rw [hscan1, ok_bind] at h1
    rw [hscan2, ok_bind] at h2
    cases rem with
    | cons c t =>
        unfold finishParse at h1
        rw [if_neg (by simp)] at h1
        exact absurd h1 (by simp)
    | nil =>
        have hr12 := finishParse_seconds env st1 tzArg s1 s2 r1 r2 info hsec h1 h2
          hcat hm1 hm2 hs1 hs12 hs2 hs22
        rw [hr12]
        exact ⟨rfl, rfl⟩

/-- Witness for the amended C9: a non-default pattern, with the seconds
chunks 05 and 59 read by its `ss` token, parses both inputs to the same
instant in the daylight-observing New York zone. -/
theorem c9_seconds_insensitive_witness :
    (⟨55800000, "America/New_York", none⟩ : DateTz).timestamp
      = (⟨55800000, "America/New_York", none⟩ : DateTz).timestamp
    ∧ (⟨55800000, "America/New_York", none⟩ : DateTz).timezone
      = (⟨55800000, "America/New_York", none⟩ : DateTz).timezone :=
  c9_seconds_insensitive demoEnv ("HH:mm:ss".data) ("10:30:05".data)
    ("10:30:59".data) [] (some ("America/New_York"))
    { hour24 := some 10, minute := some 30, second := some 5 } 5 59
    ⟨55800000, "America/New_York", none⟩ ⟨55800000, "America/New_York", none⟩
    ⟨-18000, -14400⟩ (by decide) (by decide) (by decide) (by decide) (by decide)
    (by decide) (by decide) (by decide) (by decide) (by decide) (by decide)
    (by decide) (by decide)

/-! ## Claim C1: the format/parse round trip -/

/-- Counterexample to C1 as stated: a `YY`-dated value from 2070 renders to a
two-digit year that the parser pivots back to 1970, although the pattern
names enough fields and the UTC wall clock is unambiguous. -/
theorem c1_counterexample :
    toStringDT demoEnv ⟨3159685800000, "UTC", none⟩
        (some ("YY-MM-DD HH:mm".data)) none
      = .ok ("70-02-15 10:30".data)
    ∧ parseDT demoEnv ("70-02-15 10:30".data) (some ("YY-MM-DD HH:mm".data))
        (some "UTC")
      = .ok ⟨3925800000, "UTC", none⟩
    ∧ (3925800000 : Int) ≠ 3159685800000 := by
  refine ⟨by decide, by decide, by decide⟩

theorem intToStr_eq_padI_four (v : Int) (h1 : 1000 ≤ v) (h2 : v ≤ 9999) :
    intToStr v = padI v 4 := by
  have hl : (intToStr v).length = 4 := by
    unfold intToStr
    rw [if_neg (by omega)]
    exact natToDigits_length v.toNat 3 (by omega) (by omega)
  unfold padI padStart
  rw [hl]
  simp

theorem getLocalParts_cache_none (env : Env) (d : DateTz) (info : TimezoneOffset)
    (hcat : env.tzs d.timezone = some info) (hc : d.offsetCache = none) :
    getLocalParts env d true
      = .ok (msToLocal (d.timestamp
          + (computeOffsetInfoWith env info d.timezone d.timestamp).offsetSeconds
            * MS_PER_SECOND)) := by
  unfold getLocalParts resolveOffsetSeconds getOffsetInfoVal computeOffsetInfo
    ensureTimezone
  rw [hc, hcat]
  rfl

theorem render_default (env : Env) (d : DateTz) (parts : LocalDateTime) (loc : Str) :
    renderSegs (tokenTable env d parts loc) (tokenizePattern defaultFormat)
      = intToStr parts.year ++ ("-".data ++ (padI (parts.month + 1) 2 ++ ("-".data
        ++ (padI parts.day 2 ++ (" ".data ++ (padI parts.hour 2 ++ (":".data
        ++ (padI parts.minute 2 ++ (":".data ++ padI parts.second 2))))))))) := by
  rw [tokenize_default]
  simp only [renderSegs, tokenTable, List.append_nil]

theorem toStringDT_default (env : Env) (d : DateTz) (parts : LocalDateTime)
    (hparts : getLocalParts env d true = .ok parts) :
    toStringDT env d (some defaultFormat) none
      = .ok (renderSegs (tokenTable env d parts ("en".data))
          (tokenizePattern defaultFormat)) := by
  have h1 : toStringDT env d (some defaultFormat) none
      = (getLocalParts env d true) >>= (fun p => .ok (renderSegs
          (tokenTable env d p ("en".data)) (tokenizePattern defaultFormat))) := rfl
  rw [h1, hparts, ok_bind]

set_option maxHeartbeats 1000000 in
/-- C1 (amended): for a cache-free minute-aligned value in a catalog zone,
rendered with the default pattern (which names all fields with a four-digit
year), with its local year in `[1000, 9999]`, a host offset that agrees with
one of the two catalog offsets, and an unambiguous wall clock (every exact
candidate of the reparse recovers the original instant — the formal content
of "not inside a DST gap or overlap window"), parsing the rendered string
back with the same pattern and timezone recovers the timestamp and the
timezone. -/
theorem c1_roundtrip_default (env : Env) (d : DateTz) (parts : LocalDateTime)
    (info : TimezoneOffset)
    (hcat : env.tzs d.timezone = some info)
    (hcache : d.offsetCache = none)
    (hts : d.timestamp % MS_PER_MINUTE = 0)
    (hparts : getLocalParts env d true = .ok parts)
    (hyr : 1000 ≤ parts.year) (hyr2 : parts.year ≤ 9999)
    (hoffcat : (computeOffsetInfoWith env info d.timezone d.timestamp).offsetSeconds
        = info.sdt
      ∨ (computeOffsetInfoWith env info d.timezone d.timestamp).offsetSeconds
        = info.dst)
    (hunamb : ∀ off ∈ offsetsOf info,
      (mkCandidate env info d.timezone
        (dateUTC parts.year parts.month parts.day parts.hour parts.minute parts.second)
        (dateUTC parts.year parts.month parts.day parts.hour parts.minute 0)
        off).delta = 0 →
      (mkCandidate env info d.timezone
        (dateUTC parts.year parts.month parts.day parts.hour parts.minute parts.second)
        (dateUTC parts.year parts.month parts.day parts.hour parts.minute 0)
        off).date.timestamp = d.timestamp) :
    ∃ str r, toStringDT env d (some defaultFormat) none = .ok str
      ∧ parseDT env str (some defaultFormat) (some d.timezone) = .ok r
      ∧ r.timestamp = d.timestamp ∧ r.timezone = d.timezone := by
  have hgl := getLocalParts_cache_none env d info hcat hcache
  rw [hparts] at hgl
  injection hgl with hpeq
  set off0 := (computeOffsetInfoWith env info d.timezone d.timestamp).offsetSeconds
    with hoff0
  have hrange := msToLocal_range (d.timestamp + off0 * MS_PER_SECOND)
  rw [← hpeq] at hrange
  obtain ⟨hb1, hb2, hb3, hb4, hb5, hb6, hb7, hb8, hb9, hb10⟩ := hrange
  have hbase : dateUTC parts.year parts.month parts.day parts.hour parts.minute
      parts.second = d.timestamp + off0 * MS_PER_SECOND := by
    have hml := dateUTC_msToLocal (d.timestamp + off0 * MS_PER_SECOND)
      (by rw [← hpeq]; right; omega)
    rw [← hpeq] at hml
    rw [hml]
    unfold MS_PER_SECOND MS_PER_MINUTE at *
    omega
  have hmem0 : off0 ∈ offsetsOf info := by
    unfold offsetsOf
    split
    · rename_i he
      rcases hoffcat with h | h <;> rw [h] <;> simp [he]
    · rcases hoffcat with h | h <;> simp [h]
  have hcand : mkCandidate env info d.timezone
      (dateUTC parts.year parts.month parts.day parts.hour parts.minute parts.second)
      (dateUTC parts.year parts.month parts.day parts.hour parts.minute 0) off0
      = ⟨⟨d.timestamp, d.timezone, none⟩, 0,
         (computeOffsetInfoWith env info d.timezone d.timestamp).isDst⟩ := by
    unfold mkCandidate
    rw [hbase]
    rw [show d.timestamp + off0 * MS_PER_SECOND - off0 * MS_PER_SECOND = d.timestamp
      from by ring]
    rw [floorToMinute_aligned _ hts]
    simp only []
    rw [← hoff0, ← hpeq]
    rw [sub_self]
  obtain ⟨off, hmem, hdel, hres⟩ := resolveLocal_exact_mem env parts.year parts.month
    parts.day parts.hour parts.minute parts.second d.timezone info hcat
    ⟨off0, hmem0, by rw [hcand]⟩
  have hstr : toStringDT env d (some defaultFormat) none
      = .ok (padI parts.year 4 ++ ("-".data ++ (padI (parts.month + 1) 2 ++ ("-".data
        ++ (padI parts.day 2 ++ (" ".data ++ (padI parts.hour 2 ++ (":".data
        ++ (padI parts.minute 2 ++ (":".data ++ padI parts.second 2)))))))))) := by
    rw [toStringDT_default env d parts hparts, render_default env d parts]
    rw [intToStr_eq_padI_four parts.year hyr hyr2]
  have hparse : parseDT env
      (padI parts.year 4 ++ ("-".data ++ (padI (parts.month + 1) 2 ++ ("-".data
        ++ (padI parts.day 2 ++ (" ".data ++ (padI parts.hour 2 ++ (":".data
        ++ (padI parts.minute 2 ++ (":".data ++ padI parts.second 2))))))))))
      (some defaultFormat) (some d.timezone)
      = .ok (mkCandidate env info d.timezone
          (dateUTC parts.year parts.month parts.day parts.hour parts.minute
            parts.second)
          (dateUTC parts.year parts.month parts.day parts.hour parts.minute 0)
          off).date := by
    rw [parseDT_default env d.timezone parts.year (parts.month + 1) parts.day
      parts.hour parts.minute parts.second (by omega) (by omega) (by omega) (by omega)
      (by omega) (by omega) (by omega) (by omega) (by omega) (by omega) (by omega)
      (by omega)]
    rw [show parts.month + 1 - 1 = parts.month from by ring]
    exact hres
  exact ⟨_, _, hstr, hparse, hunamb off hmem hdel, rfl⟩

/-- Witness for the amended C1 at 2021-04-15 10:30 UTC. -/
theorem c1_roundtrip_default_witness :
    ∃ str r, toStringDT demoEnv ⟨1618482600000, "UTC", none⟩ (some defaultFormat) none
        = .ok str
      ∧ parseDT demoEnv str (some defaultFormat) (some "UTC") = .ok r
      ∧ r.timestamp = 1618482600000 ∧ r.timezone = "UTC" :=
  c1_roundtrip_default demoEnv ⟨1618482600000, "UTC", none⟩ ⟨2021, 3, 15, 10, 30, 0⟩
    ⟨0, 0⟩ (by decide) (by decide) (by decide) (by decide) (by decide) (by decide)
    (by decide) (by decide)

end DateTzSpec
